import Mathlib

/-!
Verification development for the nanoquant compression core.

We give a shallow embedding of the compression-level table and the
strategy-dispatch engine (`nanoquant-core/nanoquant/core/nanoquant_generator.py`
and `dist_simple/nanoquant/core/compression_engine.py`) over exact rational
arithmetic, and prove or refute the specification's claims about them.

Conventions of the embedding:
* torch float tensors are lists (or lists of lists) of rationals; where a
  claim depends on IEEE special values (division by zero producing NaN/Inf),
  the computation is embedded with a checked division returning `Option ℚ`,
  `none` standing for a non-finite float result, which propagates through
  arithmetic and reductions exactly as NaN does in torch;
* `torch.round` rounds half to even, embedded as `troundZ`;
* Python `int()` truncates toward zero, embedded as `pyInt`;
* `torch.quantile` linearly interpolates between order statistics.
-/

set_option linter.unusedVariables false

namespace NanoQuant

/-- Python `int()` on a rational: truncation toward zero. -/
def pyInt (x : ℚ) : ℤ := if 0 ≤ x then ⌊x⌋ else ⌈x⌉

/-- `torch.round`: round half to even, as an integer. -/
def troundZ (x : ℚ) : ℤ :=
  let f := ⌊x⌋
  let r := x - f
  if r < 1/2 then f
  else if 1/2 < r then f + 1
  else if 2 ∣ f then f else f + 1

/-- `torch.round` returning a rational. -/
def troundQ (x : ℚ) : ℚ := (troundZ x : ℚ)

/-- Insertion of an element into a sorted list (ascending). -/
def insSorted (x : ℚ) : List ℚ → List ℚ
  | [] => [x]
  | y :: ys => if x ≤ y then x :: y :: ys else y :: insSorted x ys

/-- Insertion sort, ascending; the sorted view used by `torch.quantile`. -/
def sortAsc : List ℚ → List ℚ
  | [] => []
  | x :: xs => insSorted x (sortAsc xs)

/-- `torch.quantile(l, q)` with the default linear interpolation between
order statistics: index `q·(n-1)`, interpolating between the two adjacent
sorted values. Totalized with value `0` on the empty list (torch raises
there; no claim depends on that case). -/
def torchQuantile (l : List ℚ) (q : ℚ) : ℚ :=
  let s := sortAsc l
  let n := s.length
  if n = 0 then 0 else
  let idx : ℚ := q * (n - 1)
  let lo : ℕ := (⌊idx⌋).toNat
  let slo := s.getD lo 0
  let shi := s.getD (lo + 1) slo
  slo + (idx - lo) * (shi - slo)

/-- `tensor.min()` over a nonempty list (junk value 0 on `[]`, where torch
raises). -/
def listMinQ : List ℚ → ℚ
  | [] => 0
  | x :: xs => xs.foldl min x

/-- `tensor.max()` over a nonempty list (junk value 0 on `[]`). -/
def listMaxQ : List ℚ → ℚ
  | [] => 0
  | x :: xs => xs.foldl max x

/-- `tensor.mean()`; `l.sum / l.length`. Call sites in the engine guard
`numel() > 0` before taking a mean. -/
def listMeanQ (l : List ℚ) : ℚ := l.sum / l.length

/-! ### NaN-aware embedding of `_quantize_tensor`

`UltraAdvancedCompressionEngine._quantize_tensor` normalizes by
`(max_val - min_val)` with no guard; when `min_val == max_val` the float
division produces NaN/Inf. `none` models a non-finite float. -/

/-- Lifted subtraction on possibly-non-finite values. -/
def osub (a b : Option ℚ) : Option ℚ := a.bind fun x => b.map fun y => x - y

/-- Lifted addition on possibly-non-finite values. -/
def oadd (a b : Option ℚ) : Option ℚ := a.bind fun x => b.map fun y => x + y

/-- Lifted multiplication on possibly-non-finite values. -/
def omul (a b : Option ℚ) : Option ℚ := a.bind fun x => b.map fun y => x * y

/-- Checked division: a zero divisor yields a non-finite float
(`0/0 = NaN`, `x/0 = ±Inf`), modelled as `none`. -/
def odiv (a b : Option ℚ) : Option ℚ :=
  a.bind fun x => b.bind fun y => if y = 0 then none else some (x / y)

/-- `torch.round` lifted (`round(NaN) = NaN`). -/
def oround (a : Option ℚ) : Option ℚ := a.map troundQ

/-- `tensor.min()` with NaN propagation: any non-finite entry poisons the
reduction, and the empty tensor has no minimum. -/
def listMinO (l : List (Option ℚ)) : Option ℚ :=
  match l with
  | [] => none
  | x :: xs => xs.foldl (fun a b => a.bind fun p => b.map fun q => min p q) x

/-- `tensor.max()` with NaN propagation. -/
def listMaxO (l : List (Option ℚ)) : Option ℚ :=
  match l with
  | [] => none
  | x :: xs => xs.foldl (fun a b => a.bind fun p => b.map fun q => max p q) x

/-- `_quantize_tensor(tensor, bits, min_val, max_val)`:
`levels = 2**bits`; `normalized = (t - min)/(max - min)`;
`quantized = round(normalized * (levels-1))`;
result `= quantized/(levels-1)*(max-min) + min`. -/
def quantize_tensor (t : List (Option ℚ)) (bits : ℕ) (minVal maxVal : Option ℚ) :
    List (Option ℚ) :=
  let levels : ℚ := 2 ^ bits
  t.map fun x =>
    let normalized := odiv (osub x minVal) (osub maxVal minVal)
    let quantized := oround (omul normalized (some (levels - 1)))
    oadd (omul (odiv quantized (some (levels - 1))) (osub maxVal minVal)) minVal

/-- `_quantize_tensor` with the default `min_val=None, max_val=None`,
i.e. min/max derived from the tensor itself. -/
def quantize_tensor_self (t : List (Option ℚ)) (bits : ℕ) : List (Option ℚ) :=
  quantize_tensor t bits (listMinO t) (listMaxO t)

/-- Pointwise float equality of two tensors, as `torch`'s `==`/`torch.equal`
sees it: a non-finite (NaN) entry is unequal to everything, itself included. -/
def floatListEq (a b : List (Option ℚ)) : Bool :=
  a.length = b.length &&
    (List.zip a b).all fun p =>
      match p.1, p.2 with
      | some x, some y => decide (x = y)
      | _, _ => false

/-- Total single-point version of `_quantize_tensor`, used where the engine
quantizes inside a larger matrix transform. The division is the Lean rational
one (whose zero-divisor corner is treated exactly by `quantize_tensor` above;
no model-level claim depends on weight values in that corner). Applying
`_quantize_tensor` to a sub-tensor and scattering the result back by boolean
mask acts pointwise, which is how it is used below. -/
def quantizePointTot (bits : ℕ) (mn mx x : ℚ) : ℚ :=
  let levels : ℚ := 2 ^ bits
  troundQ ((x - mn) / (mx - mn) * (levels - 1)) / (levels - 1) * (mx - mn) + mn

/-! ### Per-layer weight transforms of the compression engine

A weight matrix is a list of rows of rationals. -/

/-- A 2-D weight matrix. -/
abbrev Mat := List (List ℚ)

/-- `weights.flatten()`. -/
def matFlat (w : Mat) : List ℚ := w.flatten

/-- `binarize_two_level` / the body of `_apply_onebit_quantization` on a flat
tensor: `alpha` is the mean of the entries of `weights[weights > 0]` (strictly
positive), `beta` the mean of `weights[weights < 0]`, each `0` when that
partition is empty; then `torch.where(weights >= 0, alpha, beta)`. -/
def binarize_two_level (l : List ℚ) : List ℚ :=
  let pos := l.filter fun x => 0 < x
  let neg := l.filter fun x => x < 0
  let alpha := if 0 < pos.length then listMeanQ pos else 0
  let beta := if 0 < neg.length then listMeanQ neg else 0
  l.map fun x => if 0 ≤ x then alpha else beta

/-- `_apply_onebit_quantization` on one linear layer's weight matrix:
statistics over all entries, replacement elementwise. -/
def onebitMat (w : Mat) : Mat :=
  let flat := matFlat w
  let pos := flat.filter fun x => 0 < x
  let neg := flat.filter fun x => x < 0
  let alpha := if 0 < pos.length then listMeanQ pos else 0
  let beta := if 0 < neg.length then listMeanQ neg else 0
  w.map (List.map fun x => if 0 ≤ x then alpha else beta)

/-- `_apply_ptq1_61_quantization` on one layer: the top-20 % magnitudes
(at or above the 0.8 magnitude quantile) get 4-bit uniform quantization with
min/max taken over the salient subset; the rest are binarized with the
means of the strictly positive / strictly negative non-salient entries.
The masked scatter of the source acts pointwise on each entry. -/
def ptq161Mat (w : Mat) : Mat :=
  let flat := matFlat w
  let absw := flat.map fun x => |x|
  let thr := torchQuantile absw (4/5)
  let salient := flat.filter fun x => thr ≤ |x|
  let nonsal := flat.filter fun x => ¬ thr ≤ |x|
  let mnS := listMinQ salient
  let mxS := listMaxQ salient
  let posN := nonsal.filter fun x => 0 < x
  let negN := nonsal.filter fun x => x < 0
  let alpha := if 0 < posN.length then listMeanQ posN else 0
  let beta := if 0 < negN.length then listMeanQ negN else 0
  w.map (List.map fun x =>
    if thr ≤ |x| then
      (if 0 < salient.length then quantizePointTot 4 mnS mxS x else x)
    else
      (if 0 < nonsal.length then (if 0 ≤ x then alpha else beta) else x))

/-- `_apply_ultrasketch_quantization` on one layer: quantiles at
`linspace(0,1,3) = [0, 1/2, 1]`; entries `≤` the median map to the low
quantile, entries above it to the high quantile. -/
def ultrasketchMat (w : Mat) : Mat :=
  let flat := matFlat w
  let q0 := torchQuantile flat 0
  let q1 := torchQuantile flat (1/2)
  let q2 := torchQuantile flat 1
  w.map (List.map fun x => if x ≤ q1 then q0 else q2)

/-- `prune.l1_unstructured(module, "weight", amount)`: zero the
`round(amount * numel)` smallest-magnitude entries (ties broken by position,
matching a deterministic top-k). -/
def l1UnstructuredMat (amount : ℚ) (w : Mat) : Mat :=
  let flat := matFlat w
  let n := flat.length
  let k := (troundZ (amount * n)).toNat
  let absf := flat.map fun x => |x|
  let rank := fun (i : ℕ) =>
    (List.range n).countP fun j =>
      if absf.getD j 0 < absf.getD i 0 ∨ (absf.getD j 0 = absf.getD i 0 ∧ j < i)
      then true else false
  let idxRows := (List.range w.length).map fun r =>
    (List.range ((w.getD r []).length)).map fun c =>
      (List.take r w).foldl (fun acc row => acc + row.length) 0 + c
  (w.zip idxRows).map fun ri =>
    (ri.1.zip ri.2).map fun p => if rank p.2 < k then 0 else p.1

/-- `_apply_wanda_pruning` on one layer: importance
`|w| * sqrt(mean(w^2))` (the square root supplied as an oracle since the
source computes it in floating point), threshold at the `amount` quantile of
the importance values, and `prune.custom_from_mask` keeping the complement. -/
def wandaMat (sqrtQ : ℚ → ℚ) (amount : ℚ) (w : Mat) : Mat :=
  let flat := matFlat w
  let c := sqrtQ (listMeanQ (flat.map fun x => x * x))
  let thr := torchQuantile (flat.map fun x => |x| * c) amount
  w.map (List.map fun x => if |x| * c < thr then 0 else x)

/-- `_apply_sparsegpt_pruning` on one layer: per-row Hessian-diagonal
approximation `mean(w^2) + 1e-6`, importance `w^2 / hessian`, threshold at
the `amount` quantile, zero the entries below it. -/
def sparsegptMat (amount : ℚ) (w : Mat) : Mat :=
  let hess := w.map fun row => listMeanQ (row.map fun x => x * x) + 1/1000000
  let imp := (w.zip hess).map fun rh => rh.1.map fun x => x * x / rh.2
  let thr := torchQuantile imp.flatten amount
  (w.zip hess).map fun rh => rh.1.map fun x => if x * x / rh.2 < thr then 0 else x

/-- The per-layer mask of `_identify_and_preserve_super_weights`: the top
0.1 %-by-magnitude weights, i.e. `|w| >= quantile(|w|, 0.999)`. -/
def superWeightMask (w : Mat) : List (List Bool) :=
  let thr := torchQuantile ((matFlat w).map fun x => |x|) (999/1000)
  w.map (List.map fun x => if thr ≤ |x| then true else false)

/-! ### CALR decomposition -/

/-- The factors produced by `torch.linalg.svd(W, full_matrices=False)`. -/
structure SvdFactors where
  U : Mat
  S : List ℚ
  Vh : Mat
deriving DecidableEq

/-- Dot product of two rows. -/
def dotQ (a b : List ℚ) : ℚ := ((a.zip b).map fun p => p.1 * p.2).sum

/-- Matrix product of list matrices: entry `(i, j)` is the dot product of
row `i` of `A` with column `j` of `B`. -/
def matMulM (A B : Mat) : Mat :=
  A.map fun row =>
    (List.range (B.headD []).length).map fun j => dotQ row (B.map fun r => r.getD j 0)

/-- `diag(S)` with all singular values from position `r` on zeroed:
`U[:, :r] @ diag(S[:r]) @ Vh[:r, :]` equals `U @ diagTrunc S r @ Vh`
entrywise, which is the form we embed. -/
def diagTrunc (S : List ℚ) (r : ℕ) : Mat :=
  (List.range S.length).map fun i =>
    (List.range S.length).map fun j =>
      if i = j ∧ i < r then S.getD i 0 else 0

/-- Elementwise combination of two equally-shaped matrices. -/
def matZip (f : ℚ → ℚ → ℚ) (A B : Mat) : Mat :=
  List.zipWith (List.zipWith f) A B

/-- Elementwise sum. -/
def matAdd : Mat → Mat → Mat := matZip (· + ·)

/-- Elementwise difference. -/
def matSub : Mat → Mat → Mat := matZip (· - ·)

/-- Scalar multiple. -/
def matSmul (c : ℚ) (A : Mat) : Mat := A.map (List.map fun x => c * x)

/-- `rank = max(1, int(rank_ratio * min(U.shape[1], Vh.shape[0])))`:
Python `int()` truncates. -/
def calrRank (rankFrac : ℚ) (k : ℕ) : ℕ := max 1 (pyInt (rankFrac * k)).toNat

/-- `_apply_calr_decomposition` on one layer. The SVD is an oracle
(`torch.linalg.svd` is a numeric library call); `none` models the case in
which it (and the `svd_lowrank` fallback) raised, where the `except` handlers
leave the layer unmodified. Otherwise: truncated reconstruction plus the
`0.1 * (W - W_approx)` corrective term. -/
def calrMat (svd : Mat → Option SvdFactors) (rankFrac : ℚ) (w : Mat) : Mat :=
  match svd w with
  | none => w
  | some f =>
    let k := min (f.U.headD []).length f.Vh.length
    let r := calrRank rankFrac k
    let approx := matMulM (matMulM f.U (diagTrunc f.S r)) f.Vh
    matAdd approx (matSmul (1/10) (matSub w approx))

/-! ### Model handles and the dispatch engine

`compress_model` receives the dict `model_artifacts`, reads
`model_artifacts["model"]` and transforms it stage by stage. Stages either
mutate the module tree in place (visible through every alias of the object)
or produce a fresh copy (`torch.quantization.quantize_dynamic` deep-copies,
replacing every `nn.Linear` with a dynamic-quantized module that the
`isinstance(module, torch.nn.Linear)` loops no longer match). -/

/-- One `torch.nn.Linear` module: a named weight matrix. -/
structure LinLayer where
  name : String
  weight : Mat
deriving DecidableEq

/-- An in-memory model. `dynamicQuantized` records that
`quantize_dynamic` has replaced the linear modules (so the per-`nn.Linear`
loops of every later stage find nothing); `loraAttached` records the PEFT
wrapping (which performs module surgery but leaves base weights intact and
still discoverable). -/
structure Model where
  layers : List LinLayer
  dynamicQuantized : Bool := false
  loraAttached : Bool := false
deriving DecidableEq

/-- Fault-injection points. `pruneModule` raises inside the per-module
pruning body (wrapped in `try/except` by the source), `loraAttach` inside
`get_peft_model` (wrapped), `save` inside `_save_model` (wrapped),
`quantPtq161` inside the `ptq1_61` quantization operator (not wrapped). -/
inductive Fault
  | pruneModule
  | loraAttach
  | save
  | quantPtq161
deriving DecidableEq

/-- Apply a per-layer transform to every `nn.Linear` of the model, as the
`named_modules()` loops do. After `quantize_dynamic` no `nn.Linear` exists,
so the loop body never runs. -/
def mapLinear (f : Mat → Mat) (m : Model) : Model :=
  if m.dynamicQuantized then m
  else { m with layers := m.layers.map fun L => { L with weight := f L.weight } }

/-- Per-layer transform whose per-module body is wrapped in `try/except`:
an injected `pruneModule` fault is caught for each module, leaving the
module unmodified and continuing with the next. -/
def pruneLinear (f : Mat → Mat) (fault : Option Fault) (m : Model) : Model :=
  if m.dynamicQuantized then m
  else { m with layers := m.layers.map fun L =>
    if fault = some Fault.pruneModule then L else { L with weight := f L.weight } }

/-- The dispatcher's view of a model handle during one `compress_model`
call: `shared` is the object stored in `model_artifacts["model"]`; the
stage pipeline works on `shared` itself until a copying stage detaches a
fresh object into `detached`. -/
structure DState where
  shared : Model
  detached : Option Model
deriving DecidableEq

/-- The model the next stage operates on. -/
def DState.working (st : DState) : Model := st.detached.getD st.shared

/-- An in-place stage: mutation visible through every alias, in particular
through `model_artifacts["model"]` while no copy has been made. -/
def inplaceStage (f : Model → Model) (st : DState) : DState :=
  match st.detached with
  | none => ⟨f st.shared, none⟩
  | some w => ⟨st.shared, some (f w)⟩

/-- A copying stage: the result is a fresh object, the shared one is left
as it was. -/
def copyStage (f : Model → Model) (st : DState) : DState :=
  ⟨st.shared, some (f st.working)⟩

/-- The engine's `self.super_weight_masks` instance state. -/
abbrev EngineMasks := List (String × List (List Bool))

/-- `_identify_and_preserve_super_weights`: computes the per-layer top-0.1 %
masks and stores them on the engine; the model itself is returned with no
weight modified. -/
def identify_and_preserve_super_weights (m : Model) : Model × EngineMasks :=
  (m, if m.dynamicQuantized then []
      else m.layers.map fun L => (L.name, superWeightMask L.weight))

/-- `quantization: {type: ...}` of a recipe (`get("type", "8bit")` always
finds the key in the level table). -/
structure QuantCfg where
  type : String
deriving DecidableEq

/-- `pruning: {type: ..., ratio: ...}` of a recipe; `pruneAmount` embeds the
`ratio` key read by `get("ratio", 0.3)`. -/
structure PruneCfg where
  type : String
  pruneAmount : ℚ
deriving DecidableEq

/-- `decomposition: {type: ..., rank_ratio: ...}`; `rankFrac` embeds the
`rank_ratio` key read by `get("rank_ratio", 0.5)`. -/
structure DecompCfg where
  type : String
  rankFrac : ℚ
deriving DecidableEq

/-- `lora: {r: ..., alpha: ..., dropout: ...}`. -/
structure LoraCfg where
  r : ℕ
  alpha : ℕ
  dropoutP : ℚ
deriving DecidableEq

/-- A compression recipe (`compression_config`): the optional stages plus
`preserve_super_weights` read by `get("preserve_super_weights", False)`. -/
structure Recipe where
  description : String
  quantization : Option QuantCfg := none
  pruning : Option PruneCfg := none
  decomposition : Option DecompCfg := none
  preserveSuperWeights : Bool := false
  lora : Option LoraCfg := none
deriving DecidableEq

/-- Dictionary lookup by string key (Python `key in dict` / `dict[key]`). -/
def lookupStr {α : Type} (key : String) : List (String × α) → Option α
  | [] => none
  | (k, v) :: rest => if key = k then some v else lookupStr key rest

/-- `_apply_4bit_quantization`: a stub, returns the model unchanged. -/
def apply_4bit_quantization (cfg : QuantCfg) (fault : Option Fault) (st : DState) :
    Except String DState := .ok st

/-- `_apply_8bit_quantization`: `torch.quantization.quantize_dynamic` deep
copies the model, replacing every `nn.Linear` with a dynamic-quantized
module; the result is a fresh object. -/
def apply_8bit_quantization (cfg : QuantCfg) (fault : Option Fault) (st : DState) :
    Except String DState :=
  .ok (copyStage (fun m => { m with dynamicQuantized := true }) st)

/-- `_apply_mixed_precision_quantization`: a stub. -/
def apply_mixed_precision_quantization (cfg : QuantCfg) (fault : Option Fault)
    (st : DState) : Except String DState := .ok st

/-- `_apply_quip_quantization`: a stub. -/
def apply_quip_quantization (cfg : QuantCfg) (fault : Option Fault) (st : DState) :
    Except String DState := .ok st

/-- `_apply_aqlm_quantization`: a stub. -/
def apply_aqlm_quantization (cfg : QuantCfg) (fault : Option Fault) (st : DState) :
    Except String DState := .ok st

/-- `_apply_onebit_quantization`: in-place binarization of every linear
layer, no `try/except`. -/
def apply_onebit_quantization (cfg : QuantCfg) (fault : Option Fault) (st : DState) :
    Except String DState := .ok (inplaceStage (mapLinear onebitMat) st)

/-- `_apply_ptq1_61_quantization`: in-place salience-split quantization of
every linear layer, no `try/except` (the fault-injection point for an
uncaught quantization-operator failure). -/
def apply_ptq1_61_quantization (cfg : QuantCfg) (fault : Option Fault) (st : DState) :
    Except String DState :=
  if fault = some Fault.quantPtq161 then .error "injected ptq1_61 failure"
  else .ok (inplaceStage (mapLinear ptq161Mat) st)

/-- `_apply_ultrasketch_quantization`: in-place sketch quantization of
every linear layer, no `try/except`. -/
def apply_ultrasketch_quantization (cfg : QuantCfg) (fault : Option Fault)
    (st : DState) : Except String DState :=
  .ok (inplaceStage (mapLinear ultrasketchMat) st)

/-- `self.quantization_strategies`: the dictionary of bound methods. -/
def quantization_strategies :
    List (String × (QuantCfg → Option Fault → DState → Except String DState)) :=
  [("4bit", apply_4bit_quantization), ("8bit", apply_8bit_quantization),
   ("mixed", apply_mixed_precision_quantization), ("quip", apply_quip_quantization),
   ("aqlm", apply_aqlm_quantization), ("onebit", apply_onebit_quantization),
   ("ptq1_61", apply_ptq1_61_quantization),
   ("ultrasketch", apply_ultrasketch_quantization)]

/-- `_apply_quantization`: dictionary dispatch; an unknown type logs a
warning and falls back to `_apply_8bit_quantization`. -/
def apply_quantization (cfg : QuantCfg) (fault : Option Fault) (st : DState) :
    Except String DState :=
  ((lookupStr cfg.type quantization_strategies).getD apply_8bit_quantization)
    cfg fault st

/-- `_apply_unstructured_pruning`: per-module `prune.l1_unstructured` with
the per-module body wrapped in `try/except` (so pruning never propagates an
exception); ratio read from the config. -/
def apply_unstructured_pruning (cfg : PruneCfg) (sqrtQ : ℚ → ℚ)
    (fault : Option Fault) (st : DState) : Except String DState :=
  .ok (inplaceStage (pruneLinear (l1UnstructuredMat cfg.pruneAmount) fault) st)

/-- `_apply_structured_pruning`: delegates to unstructured pruning. -/
def apply_structured_pruning (cfg : PruneCfg) (sqrtQ : ℚ → ℚ)
    (fault : Option Fault) (st : DState) : Except String DState :=
  apply_unstructured_pruning cfg sqrtQ fault st

/-- `_apply_magnitude_pruning`: delegates to unstructured pruning. -/
def apply_magnitude_pruning (cfg : PruneCfg) (sqrtQ : ℚ → ℚ)
    (fault : Option Fault) (st : DState) : Except String DState :=
  apply_unstructured_pruning cfg sqrtQ fault st

/-- `_apply_sparsegpt_pruning`: per-module Hessian-diagonal importance
pruning, per-module body caught. -/
def apply_sparsegpt_pruning (cfg : PruneCfg) (sqrtQ : ℚ → ℚ)
    (fault : Option Fault) (st : DState) : Except String DState :=
  .ok (inplaceStage (pruneLinear (sparsegptMat cfg.pruneAmount) fault) st)

/-- `_apply_wanda_pruning`: per-module weight-times-activation-norm
importance pruning, per-module body caught. -/
def apply_wanda_pruning (cfg : PruneCfg) (sqrtQ : ℚ → ℚ)
    (fault : Option Fault) (st : DState) : Except String DState :=
  .ok (inplaceStage (pruneLinear (wandaMat sqrtQ cfg.pruneAmount) fault) st)

/-- `self.pruning_strategies`: the dictionary of bound methods. -/
def pruning_strategies :
    List (String × (PruneCfg → (ℚ → ℚ) → Option Fault → DState → Except String DState)) :=
  [("unstructured", apply_unstructured_pruning),
   ("structured", apply_structured_pruning),
   ("magnitude", apply_magnitude_pruning),
   ("sparsegpt", apply_sparsegpt_pruning), ("wanda", apply_wanda_pruning)]

/-- `_apply_pruning`: dispatch with fallback to unstructured pruning. -/
def apply_pruning (cfg : PruneCfg) (sqrtQ : ℚ → ℚ) (fault : Option Fault)
    (st : DState) : Except String DState :=
  ((lookupStr cfg.type pruning_strategies).getD apply_unstructured_pruning)
    cfg sqrtQ fault st

/-- `_apply_low_rank_decomposition`: a stub, returns the model unchanged. -/
def apply_low_rank_decomposition (cfg : DecompCfg) (svd : Mat → Option SvdFactors)
    (st : DState) : Except String DState := .ok st

/-- `_apply_calr_decomposition`: per-layer truncated-SVD reconstruction
with corrective residual; its per-layer failures are absorbed (`calrMat`
on a failed SVD is the identity). -/
def apply_calr_decomposition (cfg : DecompCfg) (svd : Mat → Option SvdFactors)
    (st : DState) : Except String DState :=
  .ok (inplaceStage (mapLinear (calrMat svd cfg.rankFrac)) st)

/-- `self.decomposition_strategies`: the dictionary of bound methods. -/
def decomposition_strategies :
    List (String × (DecompCfg → (Mat → Option SvdFactors) → DState → Except String DState)) :=
  [("low_rank", apply_low_rank_decomposition), ("calr", apply_calr_decomposition)]

/-- `_apply_decomposition`: dispatch with fallback to low-rank
decomposition. -/
def apply_decomposition (cfg : DecompCfg) (svd : Mat → Option SvdFactors)
    (st : DState) : Except String DState :=
  ((lookupStr cfg.type decomposition_strategies).getD apply_low_rank_decomposition)
    cfg svd st

/-- `_apply_lora_finetuning`: `get_peft_model` performs module surgery on
the live model (an in-place effect); its failure is caught and logged, the
model then returned unmodified. -/
def apply_lora_finetuning (cfg : LoraCfg) (fault : Option Fault) (st : DState) :
    Except String DState :=
  .ok (inplaceStage
    (fun m => if fault = some Fault.loraAttach then m
              else { m with loraAttached := true }) st)

/-- Stages 2–5 of `compress_model` (quantization, pruning, decomposition,
LoRA), each applied only when its recipe key is present. None of them
receives the engine's `super_weight_masks` state. There is no `try/except`
at this level: a stage error propagates to the caller. -/
def compress_stages (cfg : Recipe) (fault : Option Fault)
    (svd : Mat → Option SvdFactors) (sqrtQ : ℚ → ℚ) (st : DState) :
    Except String DState := do
  let st ← match cfg.quantization with
    | some qc => apply_quantization qc fault st
    | none => pure st
  let st ← match cfg.pruning with
    | some pc => apply_pruning pc sqrtQ fault st
    | none => pure st
  let st ← match cfg.decomposition with
    | some dc => apply_decomposition dc svd st
    | none => pure st
  let st ← match cfg.lora with
    | some lc => apply_lora_finetuning lc fault st
    | none => pure st
  pure st

/-- `UltraAdvancedCompressionEngine.compress_model`: step 1 rebinds the
model to the value returned by `_identify_and_preserve_super_weights`
(when `preserve_super_weights` is set) and records the computed masks as
engine state, then runs stages 2–5. -/
def compress_model (cfg : Recipe) (fault : Option Fault)
    (svd : Mat → Option SvdFactors) (sqrtQ : ℚ → ℚ)
    (masks : EngineMasks) (st : DState) :
    Except String (EngineMasks × DState) :=
  let pr :=
    if cfg.preserveSuperWeights then
      (inplaceStage (fun m => (identify_and_preserve_super_weights m).1) st,
       (identify_and_preserve_super_weights st.working).2)
    else (st, masks)
  (compress_stages cfg fault svd sqrtQ pr.1).map fun st2 => (pr.2, st2)

/-! ### The 7-level table and the generator -/

/-- The `light` level's recipe. -/
def light_recipe : Recipe :=
  { description := "50-70% size reduction with maximum quality preservation"
    quantization := some ⟨"8bit"⟩
    pruning := some ⟨"wanda", 15/100⟩
    lora := some ⟨64, 32, 5/100⟩ }

/-- The `medium` level's recipe. -/
def medium_recipe : Recipe :=
  { description := "70-85% size reduction with balanced compression/quality"
    quantization := some ⟨"8bit"⟩
    pruning := some ⟨"wanda", 30/100⟩
    lora := some ⟨32, 32, 10/100⟩ }

/-- The `heavy` level's recipe. -/
def heavy_recipe : Recipe :=
  { description := "85-92% size reduction with significant compression"
    quantization := some ⟨"4bit"⟩
    pruning := some ⟨"sparsegpt", 50/100⟩
    decomposition := some ⟨"low_rank", 60/100⟩
    lora := some ⟨16, 16, 15/100⟩ }

/-- The `extreme` level's recipe (note: no `preserve_super_weights` key). -/
def extreme_recipe : Recipe :=
  { description := "92-96% size reduction with maximum compression"
    quantization := some ⟨"quip"⟩
    pruning := some ⟨"sparsegpt", 70/100⟩
    decomposition := some ⟨"calr", 40/100⟩
    lora := some ⟨8, 8, 20/100⟩ }

/-- The `ultra` level's recipe. -/
def ultra_recipe : Recipe :=
  { description := "96-98% size reduction using advanced techniques"
    quantization := some ⟨"aqlm"⟩
    pruning := some ⟨"sparsegpt", 85/100⟩
    decomposition := some ⟨"calr", 25/100⟩
    preserveSuperWeights := true
    lora := some ⟨4, 4, 25/100⟩ }

/-- The `nano` level's recipe. -/
def nano_recipe : Recipe :=
  { description := "98-99% size reduction using ultra-advanced techniques"
    quantization := some ⟨"ptq1_61"⟩
    pruning := some ⟨"sparsegpt", 92/100⟩
    decomposition := some ⟨"calr", 15/100⟩
    preserveSuperWeights := true
    lora := some ⟨2, 2, 30/100⟩ }

/-- The `atomic` level's recipe. -/
def atomic_recipe : Recipe :=
  { description := "Maximum compression using all ultra-advanced techniques"
    quantization := some ⟨"ultrasketch"⟩
    pruning := some ⟨"sparsegpt", 95/100⟩
    decomposition := some ⟨"calr", 10/100⟩
    preserveSuperWeights := true
    lora := some ⟨1, 1, 35/100⟩ }

/-- `UltraNanoQuantGenerator.compression_levels`, in declaration order. -/
def compression_levels : List (String × Recipe) :=
  [("light", light_recipe), ("medium", medium_recipe), ("heavy", heavy_recipe),
   ("extreme", extreme_recipe), ("ultra", ultra_recipe), ("nano", nano_recipe),
   ("atomic", atomic_recipe)]

/-- `UltraNanoQuantGenerator._estimate_compression_ratio`:
`ratios.get(level_name, 0.1)`. -/
def estimate_compression_frac (levelName : String) : ℚ :=
  if levelName = "light" then 30/100
  else if levelName = "medium" then 15/100
  else if levelName = "heavy" then 8/100
  else if levelName = "extreme" then 4/100
  else if levelName = "ultra" then 2/100
  else if levelName = "nano" then 1/100
  else if levelName = "atomic" then 5/1000
  else 10/100

/-- The per-level record appended to `generated_models`. -/
structure Artifact where
  name : String
  level : String
  path : String
  description : String
  compressionFrac : ℚ
  cfg : Recipe
  model : Model
deriving DecidableEq

/-- One generator iteration body: pass the shared object to a fresh
engine's `compress_model` (no `try/except` around the call), then build
the per-level artifact record (`_save_model` swallows every persistence
failure internally, so a `save` fault changes nothing observable). The
new shared object value and the record are returned. -/
def level_step (modelId outputDir : String) (fault : Option Fault)
    (svd : Mat → Option SvdFactors) (sqrtQ : ℚ → ℚ) (lv : String × Recipe)
    (m : Model) : Except String (Model × Artifact) :=
  (compress_model lv.2 fault svd sqrtQ [] ⟨m, none⟩).map fun pr =>
    let st := pr.2
    let modelName := (modelId.replace "/" "_") ++ "_" ++ lv.1
    let art : Artifact :=
      { name := modelName
        level := lv.1
        path := outputDir ++ "/" ++ modelName
        description := lv.2.description
        compressionFrac := estimate_compression_frac lv.1
        cfg := lv.2
        model := st.working }
    (st.shared, art)

/-- The generator loop over a list of levels, threading the shared
`model_artifacts["model"]` object and appending one artifact record per
successful iteration. -/
def run_levels (levels : List (String × Recipe)) (modelId outputDir : String)
    (fault : Option Fault) (svd : Mat → Option SvdFactors) (sqrtQ : ℚ → ℚ)
    (acc : Model × List Artifact) : Except String (Model × List Artifact) :=
  levels.foldlM (fun acc lv =>
    (level_step modelId outputDir fault svd sqrtQ lv acc.1).map fun r =>
      (r.1, acc.2 ++ [r.2])) acc

/-- `UltraNanoQuantGenerator.generate_nanoquants`. -/
def generate_nanoquants (m0 : Model) (modelId outputDir : String)
    (fault : Option Fault) (svd : Mat → Option SvdFactors) (sqrtQ : ℚ → ℚ) :
    Except String (List Artifact) :=
  (run_levels compression_levels modelId outputDir fault svd sqrtQ (m0, [])).map (·.2)

/-- The value of `model_artifacts["model"]` after the first `k` levels of
the generator loop, i.e. the model object the `(k+1)`-st level's
`compress_model` call starts from (defaulting to the ingested model when
an earlier level aborted). -/
def sharedBeforeLevel (m0 : Model) (modelId outputDir : String)
    (fault : Option Fault) (svd : Mat → Option SvdFactors) (sqrtQ : ℚ → ℚ)
    (k : ℕ) : Model :=
  match run_levels (compression_levels.take k) modelId outputDir fault svd sqrtQ
      (m0, []) with
  | .ok p => p.1
  | .error _ => m0

/-- Whether an `Except` computation returned normally. -/
def isOkE {ε α : Type} (e : Except ε α) : Bool :=
  match e with
  | .ok _ => true
  | .error _ => false

/-- The `level` fields of the returned artifact list (empty when the
generator raised). -/
def levelsOf (e : Except String (List Artifact)) : List String :=
  match e with
  | .ok l => l.map (·.level)
  | .error _ => []

/-! ### Concrete fixtures used by witnesses and counterexamples -/

/-- A toy ingested model: one linear layer with weights `[[1,2],[3,4]]`. -/
def m0gen : Model := { layers := [⟨"l1", [[1, 2], [3, 4]]⟩] }

/-- An SVD oracle on which `torch.linalg.svd` (and its fallback) always
raise; the per-layer handlers then leave every layer unmodified. -/
def svd0 : Mat → Option SvdFactors := fun _ => none

/-- A concrete square-root oracle (its value is irrelevant to the runs
below: Wanda's numeric body only ever executes on dynamic-quantized
copies, where no `nn.Linear` remains). -/
def sqrt0 : ℚ → ℚ := fun _ => 0

/-- A concrete SVD oracle for a 1×1 matrix: `[[2]] = [[1]]·diag(2)·[[1]]`. -/
def svdW : Mat → Option SvdFactors := fun _ => some ⟨[[1]], [2], [[1]]⟩

/-- Variant of `binarize_two_level` following the specification's words,
for comparison: `alpha` as the mean of the *non-negative* entries (the
source uses the strictly positive ones). -/
def binarize_two_level_nonneg (l : List ℚ) : List ℚ :=
  let pos := l.filter fun x => 0 ≤ x
  let neg := l.filter fun x => x < 0
  let alpha := if 0 < pos.length then listMeanQ pos else 0
  let beta := if 0 < neg.length then listMeanQ neg else 0
  l.map fun x => if 0 ≤ x then alpha else beta

/-! ### Dispatch-resolution lemmas

Each registered key resolves to the strategy it is bound to; all are
definitional. -/

theorem disp_q8 (c : Option Fault) (st : DState) :
    apply_quantization ⟨"8bit"⟩ c st = apply_8bit_quantization ⟨"8bit"⟩ c st := rfl

theorem disp_q4 (c : Option Fault) (st : DState) :
    apply_quantization ⟨"4bit"⟩ c st = apply_4bit_quantization ⟨"4bit"⟩ c st := rfl

theorem disp_quip (c : Option Fault) (st : DState) :
    apply_quantization ⟨"quip"⟩ c st = apply_quip_quantization ⟨"quip"⟩ c st := rfl

theorem disp_aqlm (c : Option Fault) (st : DState) :
    apply_quantization ⟨"aqlm"⟩ c st = apply_aqlm_quantization ⟨"aqlm"⟩ c st := rfl

theorem disp_ptq (c : Option Fault) (st : DState) :
    apply_quantization ⟨"ptq1_61"⟩ c st = apply_ptq1_61_quantization ⟨"ptq1_61"⟩ c st := rfl

theorem disp_us (c : Option Fault) (st : DState) :
    apply_quantization ⟨"ultrasketch"⟩ c st
      = apply_ultrasketch_quantization ⟨"ultrasketch"⟩ c st := rfl

theorem disp_wanda (a : ℚ) (sq : ℚ → ℚ) (c : Option Fault) (st : DState) :
    apply_pruning ⟨"wanda", a⟩ sq c st = apply_wanda_pruning ⟨"wanda", a⟩ sq c st := rfl

theorem disp_sgpt (a : ℚ) (sq : ℚ → ℚ) (c : Option Fault) (st : DState) :
    apply_pruning ⟨"sparsegpt", a⟩ sq c st
      = apply_sparsegpt_pruning ⟨"sparsegpt", a⟩ sq c st := rfl

theorem disp_lr (a : ℚ) (sv : Mat → Option SvdFactors) (st : DState) :
    apply_decomposition ⟨"low_rank", a⟩ sv st
      = apply_low_rank_decomposition ⟨"low_rank", a⟩ sv st := rfl

theorem disp_calr (a : ℚ) (sv : Mat → Option SvdFactors) (st : DState) :
    apply_decomposition ⟨"calr", a⟩ sv st
      = apply_calr_decomposition ⟨"calr", a⟩ sv st := rfl

/-! ### C3 — `preserve_super_weights` in the level table -/

/-- C3 counterexample: the claim asserts `preserve_super_weights` is true
for the `extreme` level, but the `extreme` recipe carries no
`preserve_super_weights` key, so `get("preserve_super_weights", False)`
yields `False` there. -/
theorem extreme_preserve_super_weights_is_false :
    ¬ (extreme_recipe.preserveSuperWeights = true) := by
  simp [extreme_recipe]

/-- C3 (amended): in the 7-level table, `preserve_super_weights` is
absent/false for `light`, `medium`, `heavy` *and* `extreme`, and true for
`ultra`, `nano` and `atomic` (i.e. for ultra and above, not extreme and
above). -/
theorem preserve_super_weights_table_amended :
    light_recipe.preserveSuperWeights = false ∧
    medium_recipe.preserveSuperWeights = false ∧
    heavy_recipe.preserveSuperWeights = false ∧
    extreme_recipe.preserveSuperWeights = false ∧
    ultra_recipe.preserveSuperWeights = true ∧
    nano_recipe.preserveSuperWeights = true ∧
    atomic_recipe.preserveSuperWeights = true ∧
    compression_levels.map (fun lv => (lv.1, lv.2.preserveSuperWeights)) =
      [("light", false), ("medium", false), ("heavy", false), ("extreme", false),
       ("ultra", true), ("nano", true), ("atomic", true)] := by
  refine ⟨rfl, rfl, rfl, rfl, rfl, rfl, rfl, rfl⟩

/-! ### C9 — monotonicity across the level table -/

/-- C9: taking the levels in table order light → atomic, the pruning ratio
is non-decreasing, the LoRA rank `r` is non-increasing, and the declared
compression-ratio estimate returned by `_estimate_compression_ratio` is
non-increasing. -/
theorem level_table_monotone :
    List.Chain' (· ≤ ·)
      (compression_levels.map fun lv => ((lv.2.pruning).map (·.pruneAmount)).getD 0) ∧
    List.Chain' (· ≥ ·)
      (compression_levels.map fun lv => ((lv.2.lora).map (·.r)).getD 0) ∧
    List.Chain' (· ≥ ·)
      (compression_levels.map fun lv => estimate_compression_frac lv.1) := by
  refine ⟨?_, ?_, ?_⟩
  · norm_num [compression_levels, light_recipe, medium_recipe, heavy_recipe, extreme_recipe,
      ultra_recipe, nano_recipe, atomic_recipe, List.chain'_cons, List.chain'_singleton]
  · norm_num [compression_levels, light_recipe, medium_recipe, heavy_recipe, extreme_recipe,
      ultra_recipe, nano_recipe, atomic_recipe, List.chain'_cons, List.chain'_singleton]
  · have h : compression_levels.map (fun lv => estimate_compression_frac lv.1) =
        [30/100, 15/100, 8/100, 4/100, 2/100, 1/100, 5/1000] := rfl
    rw [h]
    norm_num [List.chain'_cons, List.chain'_singleton]

/-! ### C5 — `_quantize_tensor` shape and its degenerate case -/

/-- C5: shape is preserved, but in the degenerate case `min == max` the
result is *not* pointwise `min`: the unguarded division by
`max_val - min_val = 0` produces non-finite values (NaN), so
`_quantize_tensor([5,5], 8, 5, 5)` is NaN everywhere instead of `[5,5]`. -/
theorem quantize_tensor_degenerate_nan :
    quantize_tensor [some 5, some 5] 8 (some 5) (some 5) = [none, none] ∧
    quantize_tensor [some 5, some 5] 8 (some 5) (some 5) ≠ [some 5, some 5] ∧
    ∀ (t : List (Option ℚ)) (bits : ℕ) (mn mx : Option ℚ),
      (quantize_tensor t bits mn mx).length = t.length := by
  refine ⟨?_, ?_, ?_⟩
  · simp [quantize_tensor, osub, odiv, oadd, omul, oround]
  · simp [quantize_tensor, osub, odiv, oadd, omul, oround]
  · intro t bits mn mx
    simp [quantize_tensor]

/-! ### C6 — `binarize_two_level` -/

/-- C6 counterexample: on `[0, 2]` the source computes `alpha` as the mean
of the *strictly positive* entries (`weights[weights > 0]`), giving
`alpha = 2` and output `[2, 2]`, while the claim's mean over the
non-negative entries would give `alpha = 1` and output `[1, 1]`. -/
theorem binarize_two_level_nonneg_mean_counterexample :
    binarize_two_level [0, 2] = [2, 2] ∧
    binarize_two_level_nonneg [0, 2] = [1, 1] ∧
    binarize_two_level [0, 2] ≠ binarize_two_level_nonneg [0, 2] := by
  refine ⟨?_, ?_, ?_⟩ <;>
    norm_num [binarize_two_level, binarize_two_level_nonneg, listMeanQ]

/-- C6 (amended): every non-negative entry is replaced by the mean `alpha`
of the originally *strictly positive* entries, every negative entry by the
mean `beta` of the originally negative entries, 0 replacing the mean of an
empty partition; on `[3,-1,5,-7]` this gives `alpha = 4`, `beta = -4` and
output `[4,-4,4,-4]`. -/
theorem binarize_two_level_amended :
    binarize_two_level [3, -1, 5, -7] = [4, -4, 4, -4] ∧
    ∀ (l : List ℚ),
      (binarize_two_level l).length = l.length ∧
      ∀ i, i < l.length →
        (binarize_two_level l).getD i 0 =
          (if 0 ≤ l.getD i 0 then
            (if 0 < (l.filter fun x => 0 < x).length
             then listMeanQ (l.filter fun x => 0 < x) else 0)
           else
            (if 0 < (l.filter fun x => x < 0).length
             then listMeanQ (l.filter fun x => x < 0) else 0)) := by
  constructor
  · norm_num [binarize_two_level, listMeanQ]
  · intro l
    constructor
    · simp [binarize_two_level]
    · intro i hi
      simp only [binarize_two_level]
      rw [List.getD_eq_getElem?_getD, List.getElem?_map,
        List.getElem?_eq_getElem hi, List.getD_eq_getElem?_getD,
        List.getElem?_eq_getElem hi]
      rfl

/-- Witness for the amended C6 statement at `l = [0, 2]`, `i = 0`. -/
theorem binarize_two_level_amended_witness :
    (binarize_two_level [0, 2]).getD 0 0 = 2 := by
  have h := (binarize_two_level_amended.2 [0, 2]).2 0 (by norm_num)
  rw [h]
  norm_num [listMeanQ]

/-! ### C4 — the `low_rank` strategy and the CALR reconstruction -/

/-- One row of `W + c · (W - W) = W`. -/
theorem add_smul_sub_self_row (c : ℚ) (row : List ℚ) :
    List.zipWith (· + ·) row ((List.zipWith (· - ·) row row).map fun x => c * x) = row := by
  induction row with
  | nil => rfl
  | cons x xs ih =>
    simp only [List.zipWith_cons_cons, List.map_cons, sub_self, mul_zero, add_zero,
      List.cons.injEq]
    constructor
    · simp
    · exact ih

/-- The CALR corrective step is the identity when the approximation is
exact: `A + c · (A - A) = A`. -/
theorem matAdd_smul_sub_self (c : ℚ) (w : Mat) :
    matAdd w (matSmul c (matSub w w)) = w := by
  unfold matAdd matSub matSmul matZip
  induction w with
  | nil => rfl
  | cons r rs ih =>
    simp only [List.map_cons, List.zipWith_cons_cons, add_smul_sub_self_row, List.cons.injEq]
    simp only [true_and]
    exact ih

/-- At `rank_ratio = 1` the code's rank formula keeps the full rank. -/
theorem calrRank_one (n : ℕ) (hn : 0 < n) : calrRank 1 n = n := by
  simp only [calrRank, pyInt, one_mul]
  rw [if_pos (by positivity), Int.floor_natCast, Int.toNat_natCast]
  omega

/-- C4 counterexample: the registered `low_rank` strategy performs no SVD
truncation at all — it returns the model unchanged for any `rank_ratio` —
and the SVD code path (`calr`) computes its rank by truncation
(`int(0.6 * 3) = 1`), not rounding (`round(0.6 * 3) = 2`) as the claim
states. -/
theorem low_rank_claim_counterexample :
    apply_low_rank_decomposition ⟨"low_rank", 3/5⟩ svd0 ⟨m0gen, none⟩ = .ok ⟨m0gen, none⟩ ∧
    apply_decomposition ⟨"low_rank", 3/5⟩ svd0 ⟨m0gen, none⟩ = .ok ⟨m0gen, none⟩ ∧
    calrRank (3/5) 3 = 1 ∧
    max 1 (round ((3/5 : ℚ) * 3)).toNat = 2 ∧
    calrRank (3/5) 3 ≠ max 1 (round ((3/5 : ℚ) * 3)).toNat := by
  refine ⟨rfl, rfl, ?_, ?_, ?_⟩ <;> norm_num [calrRank, pyInt, round_eq, Int.toNat]

/-- C4 (amended): the `low_rank` strategy is an identity stub; the
SVD-based reconstruction lives in the `calr` strategy, whose rank is
`max(1, int(rank_ratio * min(dims)))` (truncating, not rounding), and whose
output is `U_r Σ_r V_r^T + 0.1 (W - U_r Σ_r V_r^T)`; with `rank_ratio = 1`
and an exact SVD of a nonempty weight matrix, the output equals the input
matrix exactly (in particular it has the same shape). -/
theorem low_rank_decomposition_amended :
    (∀ (cfg : DecompCfg) (svd : Mat → Option SvdFactors) (st : DState),
        apply_low_rank_decomposition cfg svd st = .ok st) ∧
    (∀ (rf : ℚ) (k : ℕ), calrRank rf k = max 1 (pyInt (rf * k)).toNat) ∧
    (∀ (w : Mat) (f : SvdFactors) (svd : Mat → Option SvdFactors),
        svd w = some f →
        (f.U.headD []).length = f.S.length →
        f.Vh.length = f.S.length →
        0 < f.S.length →
        w = matMulM (matMulM f.U (diagTrunc f.S f.S.length)) f.Vh →
        calrMat svd 1 w = w) := by
  refine ⟨fun _ _ _ => rfl, fun _ _ => rfl, ?_⟩
  intro w f svd hsvd hU hV hk hw
  have hkk : min (f.U.headD []).length f.Vh.length = f.S.length := by
    rw [hU, hV, min_self]
  simp only [calrMat, hsvd, hkk, calrRank_one _ hk]
  rw [← hw]
  exact matAdd_smul_sub_self _ _

/-- Witness for the amended C4 statement on the 1×1 matrix `[[2]]` with
exact SVD factors `U = [[1]]`, `S = [2]`, `Vh = [[1]]`. -/
theorem low_rank_decomposition_amended_witness :
    calrMat svdW 1 [[2]] = [[2]] := by
  refine low_rank_decomposition_amended.2.2 [[2]] ⟨[[1]], [2], [[1]]⟩ svdW rfl rfl rfl
    (by norm_num) ?_
  norm_num [matMulM, dotQ, diagTrunc, List.range_succ, List.range_zero, List.headD,
    Function.comp, List.zip]

/-! ### C8 — fallback on unregistered strategy keys -/

/-- A key that is not among the registered keys looks up to `none`. -/
theorem lookupStr_eq_none {α : Type} (key : String) (l : List (String × α))
    (h : key ∉ l.map Prod.fst) : lookupStr key l = none := by
  induction l with
  | nil => rfl
  | cons p rest ih =>
    simp only [List.map_cons, List.mem_cons] at h
    push_neg at h
    simp only [lookupStr, if_neg h.1]
    exact ih h.2

/-- C8: resolution of an unregistered quantization / pruning /
decomposition key never raises and produces exactly the result of
requesting the documented default key (`8bit` / `unstructured` /
`low_rank`) with the same remaining parameters; `magnitude` is itself a
synonym of unstructured pruning. -/
theorem strategy_fallback_deterministic :
    ∀ key : String,
      (key ∉ quantization_strategies.map Prod.fst →
        ∀ (fault : Option Fault) (st : DState),
          apply_quantization ⟨key⟩ fault st = apply_quantization ⟨"8bit"⟩ fault st ∧
          isOkE (apply_quantization ⟨key⟩ fault st) = true) ∧
      (key ∉ pruning_strategies.map Prod.fst →
        ∀ (a : ℚ) (sq : ℚ → ℚ) (fault : Option Fault) (st : DState),
          apply_pruning ⟨key, a⟩ sq fault st = apply_pruning ⟨"unstructured", a⟩ sq fault st ∧
          isOkE (apply_pruning ⟨key, a⟩ sq fault st) = true) ∧
      (key ∉ decomposition_strategies.map Prod.fst →
        ∀ (a : ℚ) (sv : Mat → Option SvdFactors) (st : DState),
          apply_decomposition ⟨key, a⟩ sv st = apply_decomposition ⟨"low_rank", a⟩ sv st ∧
          isOkE (apply_decomposition ⟨key, a⟩ sv st) = true) ∧
      (∀ (a : ℚ) (sq : ℚ → ℚ) (fault : Option Fault) (st : DState),
          apply_pruning ⟨"magnitude", a⟩ sq fault st
            = apply_pruning ⟨"unstructured", a⟩ sq fault st) := by
  intro key
  refine ⟨?_, ?_, ?_, fun a sq fault st => rfl⟩
  · intro h fault st
    have hl := lookupStr_eq_none key quantization_strategies h
    constructor
    · simp only [apply_quantization, hl, Option.getD_none]
      simp [lookupStr, quantization_strategies, Option.getD_some, apply_8bit_quantization]
    · simp [apply_quantization, hl, Option.getD_none, apply_8bit_quantization, isOkE]
  · intro h a sq fault st
    have hl := lookupStr_eq_none key pruning_strategies h
    constructor
    · simp only [apply_pruning, hl, Option.getD_none]
      simp [lookupStr, pruning_strategies, Option.getD_some, apply_unstructured_pruning]
    · simp [apply_pruning, hl, Option.getD_none, apply_unstructured_pruning, isOkE]
  · intro h a sv st
    have hl := lookupStr_eq_none key decomposition_strategies h
    constructor
    · simp only [apply_decomposition, hl, Option.getD_none]
      simp [lookupStr, decomposition_strategies, Option.getD_some, apply_low_rank_decomposition]
    · simp [apply_decomposition, hl, Option.getD_none, apply_low_rank_decomposition, isOkE]

/-- Witness for C8 at the unregistered key `"foo"`. -/
theorem strategy_fallback_deterministic_witness :
    (apply_quantization ⟨"foo"⟩ none ⟨{ layers := [] }, none⟩ =
       apply_quantization ⟨"8bit"⟩ none ⟨{ layers := [] }, none⟩) ∧
    (apply_pruning ⟨"foo", 1/2⟩ sqrt0 none ⟨{ layers := [] }, none⟩ =
       apply_pruning ⟨"unstructured", 1/2⟩ sqrt0 none ⟨{ layers := [] }, none⟩) ∧
    (apply_decomposition ⟨"foo", 1/2⟩ svd0 ⟨{ layers := [] }, none⟩ =
       apply_decomposition ⟨"low_rank", 1/2⟩ svd0 ⟨{ layers := [] }, none⟩) := by
  have h := strategy_fallback_deterministic "foo"
  refine ⟨(h.1 ?_ none _).1, (h.2.1 ?_ (1/2) sqrt0 none _).1, (h.2.2.1 ?_ (1/2) svd0 _).1⟩
  · simp [quantization_strategies]
  · simp [pruning_strategies]
  · simp [decomposition_strategies]

/-! ### C10 — the super-weight stage is a frame-preserving no-op -/

/-- The stage-1 rebinding is the identity on the dispatch state. -/
theorem map_snd_of_map_pair {ε α β : Type} (x : Except ε β) (a1 a2 : α) :
    (x.map fun v => (a1, v)).map Prod.snd = (x.map fun v => (a2, v)).map Prod.snd := by
  cases x <;> rfl

/-- C10: `_identify_and_preserve_super_weights` returns the model with no
weight modified; the model produced by `compress_model` is unchanged if the
whole super-weight stage is removed (so its stored masks are never
consulted by any later stage, and the initial engine mask state is
irrelevant); and the masks it stores are exactly the per-layer top-0.1 %
magnitude masks. -/
theorem super_weight_stage_frame :
    (∀ m : Model, (identify_and_preserve_super_weights m).1 = m) ∧
    (∀ (cfg : Recipe) (e1 e2 : EngineMasks) (st : DState) (fault : Option Fault)
        (svd : Mat → Option SvdFactors) (sq : ℚ → ℚ),
        (compress_model cfg fault svd sq e1 st).map Prod.snd =
          (compress_model { cfg with preserveSuperWeights := false } fault svd sq e2 st).map
            Prod.snd) ∧
    (∀ m : Model, m.dynamicQuantized = false →
        (identify_and_preserve_super_weights m).2 =
          m.layers.map fun L => (L.name, superWeightMask L.weight)) := by
  refine ⟨fun m => rfl, ?_, ?_⟩
  · intro cfg e1 e2 st fault svd sq
    rcases cfg with ⟨d, q, p, dec, pre, lo⟩
    rcases st with ⟨sh, dt⟩
    cases pre <;> cases dt <;>
      exact map_snd_of_map_pair _ _ _
  · intro m hm
    simp [identify_and_preserve_super_weights, hm]

/-- Witness for C10 at the toy model (whose linear modules are intact,
i.e. not dynamic-quantized). -/
theorem super_weight_stage_frame_witness :
    (identify_and_preserve_super_weights m0gen).2 =
      m0gen.layers.map fun L => (L.name, superWeightMask L.weight) :=
  super_weight_stage_frame.2.2 m0gen rfl

/-! ### Concrete per-level runs of the dispatcher

These evaluation lemmas trace `compress_model` per level on the toy model.
`light`/`medium`: `quantize_dynamic` detaches a copy, so the later in-place
stages never touch the shared object; `heavy` is the first level whose
stages (`4bit` stub, then in-place sparsegpt pruning) run on the shared
object itself and mutate it. The numeric leaves are evaluated first. -/

theorem sgpt50 : sparsegptMat (50/100) [[1, 2], [3, 4]] = [[0, 2], [0, 4]] := by
  norm_num [sparsegptMat, torchQuantile, sortAsc, insSorted, listMeanQ, Int.toNat]

theorem sgpt70 : sparsegptMat (70/100) [[0, 2], [0, 4]] = [[0, 0], [0, 4]] := by
  norm_num [sparsegptMat, torchQuantile, sortAsc, insSorted, listMeanQ, Int.toNat]

theorem sgpt85 : sparsegptMat (85/100) [[0, 0], [0, 4]] = [[0, 0], [0, 4]] := by
  norm_num [sparsegptMat, torchQuantile, sortAsc, insSorted, listMeanQ, Int.toNat]

theorem mask004 : superWeightMask [[0, 0], [0, 4]] = [[false, false], [false, true]] := by
  norm_num [superWeightMask, matFlat, torchQuantile, sortAsc, insSorted, Int.toNat]

theorem ev_none_light :
    compress_model light_recipe none svd0 sqrt0 [] ⟨m0gen, none⟩ =
      .ok ([], ⟨m0gen, some { layers := [⟨"l1", [[1, 2], [3, 4]]⟩],
                              dynamicQuantized := true, loraAttached := true }⟩) := rfl

theorem ev_none_medium :
    compress_model medium_recipe none svd0 sqrt0 [] ⟨m0gen, none⟩ =
      .ok ([], ⟨m0gen, some { layers := [⟨"l1", [[1, 2], [3, 4]]⟩],
                              dynamicQuantized := true, loraAttached := true }⟩) := rfl

theorem ev_none_heavy :
    compress_model heavy_recipe none svd0 sqrt0 [] ⟨m0gen, none⟩ =
      .ok ([], ⟨{ layers := [⟨"l1", [[0, 2], [0, 4]]⟩], loraAttached := true }, none⟩) := by
  simp [compress_model, compress_stages, heavy_recipe,
    disp_q4, disp_sgpt, disp_lr, apply_4bit_quantization, apply_sparsegpt_pruning,
    apply_low_rank_decomposition, apply_lora_finetuning, copyStage, inplaceStage, DState.working,
    mapLinear, pruneLinear, m0gen, Except.bind, pure, Except.pure, Bind.bind, Except.map, sgpt50]

/-! ### Plumbing for the generator runs

Targeted constructor-equation lemmas (so rewriting never disturbs the
fold lambdas), and accumulator-stripping lemmas for the generator loop. -/

theorem except_map_ok {ε α β : Type} (f : α → β) (a : α) :
    (Except.ok a : Except ε α).map f = .ok (f a) := rfl

theorem except_map_error {ε α β : Type} (f : α → β) (e : ε) :
    (Except.error e : Except ε α).map f = .error e := rfl

theorem bindE {ε α β : Type} (x : Except ε α) (f : α → Except ε β) :
    x >>= f = Except.bind x f := rfl

theorem except_bind_ok {ε α β : Type} (a : α) (f : α → Except ε β) :
    Except.bind (.ok a) f = f a := rfl

theorem except_bind_error {ε α β : Type} (e : ε) (f : α → Except ε β) :
    Except.bind (.error e : Except ε α) f = .error e := rfl

theorem pureE {ε α : Type} (a : α) : (pure a : Except ε α) = .ok a := rfl

/-- `Except.map` preserves ok-ness. -/
theorem isOkE_map {ε α β : Type} (f : α → β) (e : Except ε α) :
    isOkE (e.map f) = isOkE e := by
  cases e <;> rfl

/-- A generator run that raised produced no artifact records. -/
theorem levelsOf_of_not_ok (e : Except String (List Artifact))
    (h : isOkE e = false) : levelsOf e = [] := by
  cases e with
  | ok l => simp [isOkE] at h
  | error s => rfl

/-- Projecting the shared model ignores an outer artifact-append. -/
theorem except_map_fst_pair {ε : Type} (e : Except ε (Model × List Artifact))
    (arts : List Artifact) :
    ((e.map fun p => (p.1, arts ++ p.2)).map Prod.fst) = e.map Prod.fst := by
  cases e <;> rfl

/-- The artifact accumulator of the generator fold is write-only: running
with records already accumulated appends to them and changes nothing
else. -/
theorem foldlM_pair_shape {γ : Type} (step : γ → Model → Except String (Model × Artifact)) :
    ∀ (l : List γ) (b : Model) (arts : List Artifact),
      (l.foldlM (fun acc lv => (step lv acc.1).map fun r => (r.1, acc.2 ++ [r.2])) (b, arts)) =
        (l.foldlM (fun acc lv => (step lv acc.1).map fun r => (r.1, acc.2 ++ [r.2]))
            (b, [])).map fun p => (p.1, arts ++ p.2) := by
  intro l
  induction l with
  | nil =>
    intro b arts
    simp only [List.foldlM_nil, pureE, except_map_ok, List.nil_append]
    simp
  | cons x xs ih =>
    intro b arts
    simp only [List.foldlM_cons]
    cases h : step x b with
    | error e =>
      simp only [h, except_map_error, bindE, except_bind_error]
    | ok r =>
      simp only [h, except_map_ok, bindE, except_bind_ok, List.nil_append]
      rw [ih r.1 (arts ++ [r.2]), ih r.1 [r.2]]
      cases hr : xs.foldlM
          (fun acc lv => (step lv acc.1).map fun r => (r.1, acc.2 ++ [r.2])) (r.1, []) with
      | error e => simp only [hr, except_map_error]
      | ok q => simp only [hr, except_map_ok, List.append_assoc]

/-- A successful `compress_model` call makes the level step succeed with
the new shared object and a record labelled with the level's name. -/
theorem level_step_ok_of (lv : String × Recipe) (mid outd : String)
    (f : Option Fault) (sv : Mat → Option SvdFactors) (sq : ℚ → ℚ)
    (m : Model) (pr : EngineMasks × DState)
    (h : compress_model lv.2 f sv sq [] ⟨m, none⟩ = .ok pr) :
    ∃ art, level_step mid outd f sv sq lv m = .ok (pr.2.shared, art) ∧ art.level = lv.1 := by
  simp only [level_step, h, except_map_ok]
  exact ⟨_, rfl, rfl⟩

/-- A raising `compress_model` call makes the level step raise. -/
theorem level_step_err_of (lv : String × Recipe) (mid outd : String)
    (f : Option Fault) (sv : Mat → Option SvdFactors) (sq : ℚ → ℚ)
    (m : Model) (e : String)
    (h : compress_model lv.2 f sv sq [] ⟨m, none⟩ = .error e) :
    level_step mid outd f sv sq lv m = .error e := by
  simp only [level_step, h, except_map_error]

/-- One generator iteration whose dispatch succeeds: the rest of the run
continues from the new shared object (with a fresh accumulator, which the
shape lemma justifies). -/
theorem run_levels_isOk_step_ok {lv : String × Recipe} {rest : List (String × Recipe)}
    {mid outd : String} {f : Option Fault} {sv : Mat → Option SvdFactors} {sq : ℚ → ℚ}
    {m : Model} {r : Model × Artifact} (arts : List Artifact)
    (h : level_step mid outd f sv sq lv m = .ok r) :
    isOkE (run_levels (lv :: rest) mid outd f sv sq (m, arts)) =
      isOkE (run_levels rest mid outd f sv sq (r.1, [])) := by
  simp only [run_levels, List.foldlM_cons, h, except_map_ok, bindE, except_bind_ok]
  rw [foldlM_pair_shape (level_step mid outd f sv sq) rest r.1 (arts ++ [r.2]), isOkE_map]

/-- One generator iteration whose dispatch raises aborts the whole run. -/
theorem run_levels_isOk_step_err {lv : String × Recipe} {rest : List (String × Recipe)}
    {mid outd : String} {f : Option Fault} {sv : Mat → Option SvdFactors} {sq : ℚ → ℚ}
    {m : Model} {e : String} (arts : List Artifact)
    (h : level_step mid outd f sv sq lv m = .error e) :
    isOkE (run_levels (lv :: rest) mid outd f sv sq (m, arts)) = false := by
  simp only [run_levels, List.foldlM_cons, h, except_map_error, bindE, except_bind_error, isOkE]

/-- The shared-object thread of one successful generator iteration. -/
theorem run_levels_shared_step {lv : String × Recipe} {rest : List (String × Recipe)}
    {mid outd : String} {f : Option Fault} {sv : Mat → Option SvdFactors} {sq : ℚ → ℚ}
    {m : Model} {r : Model × Artifact} (arts : List Artifact)
    (h : level_step mid outd f sv sq lv m = .ok r) :
    (run_levels (lv :: rest) mid outd f sv sq (m, arts)).map Prod.fst =
      (run_levels rest mid outd f sv sq (r.1, [])).map Prod.fst := by
  simp only [run_levels, List.foldlM_cons, h, except_map_ok, bindE, except_bind_ok]
  rw [foldlM_pair_shape (level_step mid outd f sv sq) rest r.1 (arts ++ [r.2]),
    except_map_fst_pair]

/-- Recover `sharedBeforeLevel` from the mapped shared-model thread. -/
theorem sharedBefore_of_map_fst (m0 : Model) (mid outd : String)
    (f : Option Fault) (sv : Mat → Option SvdFactors) (sq : ℚ → ℚ) (k : ℕ) (msh : Model)
    (h : (run_levels (compression_levels.take k) mid outd f sv sq (m0, [])).map Prod.fst
        = .ok msh) :
    sharedBeforeLevel m0 mid outd f sv sq k = msh := by
  unfold sharedBeforeLevel
  cases hx : run_levels (compression_levels.take k) mid outd f sv sq (m0, []) with
  | error e => rw [hx] at h; exact absurd h (by simp [except_map_error])
  | ok p =>
    rw [hx] at h
    simp only [except_map_ok, Except.ok.injEq] at h
    exact h

/-- The shared model object after the first three generator iterations. -/
theorem shared_before_extreme :
    sharedBeforeLevel m0gen "m/x" "out" none svd0 sqrt0 3 =
      { layers := [⟨"l1", [[0, 2], [0, 4]]⟩], loraAttached := true } := by
  apply sharedBefore_of_map_fst
  rw [show compression_levels.take 3 =
      [("light", light_recipe), ("medium", medium_recipe), ("heavy", heavy_recipe)] from rfl]
  obtain ⟨a1, h1, -⟩ := level_step_ok_of ("light", light_recipe) "m/x" "out" _ _ _ _ _ ev_none_light
  rw [run_levels_shared_step [] h1]
  show (run_levels [("medium", medium_recipe), ("heavy", heavy_recipe)]
    "m/x" "out" none svd0 sqrt0 (m0gen, [])).map Prod.fst = _
  obtain ⟨a2, h2, -⟩ := level_step_ok_of ("medium", medium_recipe) "m/x" "out" _ _ _ _ _ ev_none_medium
  rw [run_levels_shared_step [] h2]
  show (run_levels [("heavy", heavy_recipe)]
    "m/x" "out" none svd0 sqrt0 (m0gen, [])).map Prod.fst = _
  obtain ⟨a3, h3, -⟩ := level_step_ok_of ("heavy", heavy_recipe) "m/x" "out" _ _ _ _ _ ev_none_heavy
  rw [run_levels_shared_step [] h3]
  rfl

theorem ev_ptqf_light :
    compress_model light_recipe (some Fault.quantPtq161) svd0 sqrt0 [] ⟨m0gen, none⟩ =
      .ok ([], ⟨m0gen, some { layers := [⟨"l1", [[1, 2], [3, 4]]⟩],
                              dynamicQuantized := true, loraAttached := true }⟩) := rfl

theorem ev_ptqf_medium :
    compress_model medium_recipe (some Fault.quantPtq161) svd0 sqrt0 [] ⟨m0gen, none⟩ =
      .ok ([], ⟨m0gen, some { layers := [⟨"l1", [[1, 2], [3, 4]]⟩],
                              dynamicQuantized := true, loraAttached := true }⟩) := rfl

theorem ev_ptqf_heavy :
    compress_model heavy_recipe (some Fault.quantPtq161) svd0 sqrt0 [] ⟨m0gen, none⟩ =
      .ok ([], ⟨{ layers := [⟨"l1", [[0, 2], [0, 4]]⟩], loraAttached := true }, none⟩) := by
  simp [compress_model, compress_stages, heavy_recipe,
    disp_q4, disp_sgpt, disp_lr, apply_4bit_quantization, apply_sparsegpt_pruning,
    apply_low_rank_decomposition, apply_lora_finetuning, copyStage, inplaceStage, DState.working,
    mapLinear, pruneLinear, m0gen, Except.bind, pure, Except.pure, Bind.bind, Except.map, sgpt50]

theorem ev_ptqf_extreme :
    compress_model extreme_recipe (some Fault.quantPtq161) svd0 sqrt0 []
      ⟨{ layers := [⟨"l1", [[0, 2], [0, 4]]⟩], loraAttached := true }, none⟩ =
      .ok ([], ⟨{ layers := [⟨"l1", [[0, 0], [0, 4]]⟩], loraAttached := true }, none⟩) := by
  simp [compress_model, compress_stages, extreme_recipe,
    disp_quip, disp_sgpt, disp_calr, apply_quip_quantization, apply_sparsegpt_pruning,
    apply_calr_decomposition, apply_lora_finetuning, copyStage, inplaceStage, DState.working,
    mapLinear, pruneLinear, svd0, calrMat, Except.bind, pure, Except.pure, Bind.bind, Except.map,
    sgpt70]

theorem ev_ptqf_ultra :
    compress_model ultra_recipe (some Fault.quantPtq161) svd0 sqrt0 []
      ⟨{ layers := [⟨"l1", [[0, 0], [0, 4]]⟩], loraAttached := true }, none⟩ =
      .ok ([("l1", [[false, false], [false, true]])],
           ⟨{ layers := [⟨"l1", [[0, 0], [0, 4]]⟩], loraAttached := true }, none⟩) := by
  simp [compress_model, compress_stages, ultra_recipe,
    identify_and_preserve_super_weights, mask004,
    disp_aqlm, disp_sgpt, disp_calr, apply_aqlm_quantization, apply_sparsegpt_pruning,
    apply_calr_decomposition, apply_lora_finetuning, copyStage, inplaceStage, DState.working,
    mapLinear, pruneLinear, svd0, calrMat, Except.bind, pure, Except.pure, Bind.bind, Except.map,
    sgpt85]

theorem ev_ptqf_nano :
    compress_model nano_recipe (some Fault.quantPtq161) svd0 sqrt0 []
      ⟨{ layers := [⟨"l1", [[0, 0], [0, 4]]⟩], loraAttached := true }, none⟩ =
      .error "injected ptq1_61 failure" := rfl

/-- C1 counterexample: with a failure injected into a single quantization
operator (`ptq1_61`, reached at the `nano` level), `generate_nanoquants`
raises — there is no `try/except` between the generator loop and the
quantization operators — so no artifact list at all is returned, let alone
one artifact per level. -/
theorem generate_nanoquants_aborts_on_quant_operator_fault :
    isOkE (generate_nanoquants m0gen "m/x" "out" (some Fault.quantPtq161) svd0 sqrt0)
      = false ∧
    levelsOf (generate_nanoquants m0gen "m/x" "out" (some Fault.quantPtq161) svd0 sqrt0)
      = [] := by
  have hok : isOkE (generate_nanoquants m0gen "m/x" "out" (some Fault.quantPtq161) svd0 sqrt0)
      = false := by
    rw [generate_nanoquants, isOkE_map,
      show compression_levels = [("light", light_recipe), ("medium", medium_recipe),
        ("heavy", heavy_recipe), ("extreme", extreme_recipe), ("ultra", ultra_recipe),
        ("nano", nano_recipe), ("atomic", atomic_recipe)] from rfl]
    obtain ⟨a1, h1, -⟩ := level_step_ok_of ("light", light_recipe) "m/x" "out" _ _ _ _ _ ev_ptqf_light
    rw [run_levels_isOk_step_ok [] h1]
    show isOkE (run_levels [("medium", medium_recipe), ("heavy", heavy_recipe),
      ("extreme", extreme_recipe), ("ultra", ultra_recipe), ("nano", nano_recipe),
      ("atomic", atomic_recipe)] "m/x" "out" (some Fault.quantPtq161) svd0 sqrt0
      (m0gen, [])) = false
    obtain ⟨a2, h2, -⟩ := level_step_ok_of ("medium", medium_recipe) "m/x" "out" _ _ _ _ _ ev_ptqf_medium
    rw [run_levels_isOk_step_ok [] h2]
    show isOkE (run_levels [("heavy", heavy_recipe), ("extreme", extreme_recipe),
      ("ultra", ultra_recipe), ("nano", nano_recipe), ("atomic", atomic_recipe)]
      "m/x" "out" (some Fault.quantPtq161) svd0 sqrt0 (m0gen, [])) = false
    obtain ⟨a3, h3, -⟩ := level_step_ok_of ("heavy", heavy_recipe) "m/x" "out" _ _ _ _ _ ev_ptqf_heavy
    rw [run_levels_isOk_step_ok [] h3]
    show isOkE (run_levels [("extreme", extreme_recipe), ("ultra", ultra_recipe),
      ("nano", nano_recipe), ("atomic", atomic_recipe)] "m/x" "out"
      (some Fault.quantPtq161) svd0 sqrt0
      ({ layers := [⟨"l1", [[0, 2], [0, 4]]⟩], loraAttached := true }, [])) = false
    obtain ⟨a4, h4, -⟩ := level_step_ok_of ("extreme", extreme_recipe) "m/x" "out" _ _ _ _ _ ev_ptqf_extreme
    rw [run_levels_isOk_step_ok [] h4]
    show isOkE (run_levels [("ultra", ultra_recipe), ("nano", nano_recipe),
      ("atomic", atomic_recipe)] "m/x" "out" (some Fault.quantPtq161) svd0 sqrt0
      ({ layers := [⟨"l1", [[0, 0], [0, 4]]⟩], loraAttached := true }, [])) = false
    obtain ⟨a5, h5, -⟩ := level_step_ok_of ("ultra", ultra_recipe) "m/x" "out" _ _ _ _ _ ev_ptqf_ultra
    rw [run_levels_isOk_step_ok [] h5]
    show isOkE (run_levels [("nano", nano_recipe), ("atomic", atomic_recipe)]
      "m/x" "out" (some Fault.quantPtq161) svd0 sqrt0
      ({ layers := [⟨"l1", [[0, 0], [0, 4]]⟩], loraAttached := true }, [])) = false
    exact run_levels_isOk_step_err []
      (level_step_err_of ("nano", nano_recipe) "m/x" "out" _ _ _ _ _ ev_ptqf_nano)
  exact ⟨hok, levelsOf_of_not_ok _ hok⟩

/-! ### C2 — cross-level interference through the shared model object -/

/-- C2 code_bug: the generator loop passes the *same*
`model_artifacts["model"]` object to every level's `compress_model` call
and the in-place stages mutate it, so the weights seen by a later level
are not the original ingested weights: the first level's dispatch starts
from the ingested model, but the fourth (`extreme`) starts from an object
the first three levels have already pruned and LoRA-wrapped. -/
theorem shared_model_mutated_across_levels :
    sharedBeforeLevel m0gen "m/x" "out" none svd0 sqrt0 0 = m0gen ∧
    sharedBeforeLevel m0gen "m/x" "out" none svd0 sqrt0 3 ≠ m0gen := by
  constructor
  · rfl
  · rw [shared_before_extreme]
    intro h
    have hh := congrArg Model.loraAttached h
    simp [m0gen] at hh

/-! ### C1 (amended) — resilience under the faults the engine does catch -/

/-- A successful key lookup returns a stored pair. -/
theorem lookupStr_mem {α : Type} {k : String} {v : α} :
    ∀ {l : List (String × α)}, lookupStr k l = some v → (k, v) ∈ l := by
  intro l
  induction l with
  | nil => intro h; simp [lookupStr] at h
  | cons p rest ih =>
    obtain ⟨k2, v2⟩ := p
    intro h
    by_cases hk : k = k2
    · subst hk
      rw [lookupStr, if_pos rfl] at h
      injection h with h2
      subst h2
      exact List.mem_cons_self _ _
    · rw [lookupStr, if_neg hk] at h
      exact List.mem_cons_of_mem _ (ih h)

/-- Every registered (or fallback) quantization strategy returns normally
unless the `ptq1_61` operator fault is injected. -/
theorem apply_quantization_ok (cfg : QuantCfg) (f : Option Fault) (st : DState)
    (hf : f ≠ some Fault.quantPtq161) :
    ∃ st2, apply_quantization cfg f st = .ok st2 := by
  rw [apply_quantization]
  cases hl : lookupStr cfg.type quantization_strategies with
  | none => exact ⟨_, rfl⟩
  | some g =>
    have hm := lookupStr_mem hl
    simp only [quantization_strategies, List.mem_cons, List.not_mem_nil, or_false,
      Prod.mk.injEq] at hm
    rcases hm with h | h | h | h | h | h | h | h <;>
      rw [h.2] <;>
      simp only [Option.getD_some] <;>
      first
        | exact ⟨_, rfl⟩
        | exact ⟨_, by rw [apply_ptq1_61_quantization, if_neg hf]⟩

/-- Every registered (or fallback) pruning strategy returns normally (the
per-module bodies are `try/except`-wrapped in the source). -/
theorem apply_pruning_ok (cfg : PruneCfg) (sq : ℚ → ℚ) (f : Option Fault)
    (st : DState) : ∃ st2, apply_pruning cfg sq f st = .ok st2 := by
  rw [apply_pruning]
  cases hl : lookupStr cfg.type pruning_strategies with
  | none => exact ⟨_, rfl⟩
  | some g =>
    have hm := lookupStr_mem hl
    simp only [pruning_strategies, List.mem_cons, List.not_mem_nil, or_false,
      Prod.mk.injEq] at hm
    rcases hm with h | h | h | h | h <;> rw [h.2] <;> exact ⟨_, rfl⟩

/-- Every registered (or fallback) decomposition strategy returns
normally. -/
theorem apply_decomposition_ok (cfg : DecompCfg) (sv : Mat → Option SvdFactors)
    (st : DState) : ∃ st2, apply_decomposition cfg sv st = .ok st2 := by
  rw [apply_decomposition]
  cases hl : lookupStr cfg.type decomposition_strategies with
  | none => exact ⟨_, rfl⟩
  | some g =>
    have hm := lookupStr_mem hl
    simp only [decomposition_strategies, List.mem_cons, List.not_mem_nil, or_false,
      Prod.mk.injEq] at hm
    rcases hm with h | h <;> rw [h.2] <;> exact ⟨_, rfl⟩

/-- A bind of two normally-returning computations returns normally. -/
theorem exists_ok_bind {ε α β : Type} {x : Except ε α} {g : α → Except ε β}
    (hx : ∃ a, x = Except.ok a) (hg : ∀ a, ∃ b, g a = Except.ok b) :
    ∃ b, Except.bind x g = Except.ok b := by
  obtain ⟨a, ha⟩ := hx
  obtain ⟨b, hb⟩ := hg a
  exact ⟨b, by rw [ha, except_bind_ok, hb]⟩

/-- The whole stage pipeline returns normally unless the `ptq1_61`
operator fault is injected. -/
theorem compress_stages_ok (cfg : Recipe) (f : Option Fault)
    (sv : Mat → Option SvdFactors) (sq : ℚ → ℚ) (st : DState)
    (hf : f ≠ some Fault.quantPtq161) :
    ∃ st2, compress_stages cfg f sv sq st = .ok st2 := by
  rcases cfg with ⟨desc, q, p, d, psw, lo⟩
  cases q <;> cases p <;> cases d <;> cases lo <;>
    simp only [compress_stages, bindE, pureE, except_bind_ok] <;>
    repeat'
      first
        | exact apply_quantization_ok _ _ _ hf
        | exact apply_pruning_ok _ _ _ _
        | exact apply_decomposition_ok _ _ _
        | refine exists_ok_bind ?_ fun s => ?_
        | exact ⟨_, rfl⟩

/-- `compress_model` returns normally unless the `ptq1_61` operator fault
is injected. -/
theorem compress_model_ok (cfg : Recipe) (f : Option Fault)
    (sv : Mat → Option SvdFactors) (sq : ℚ → ℚ) (e : EngineMasks) (st : DState)
    (hf : f ≠ some Fault.quantPtq161) :
    ∃ pr, compress_model cfg f sv sq e st = .ok pr := by
  obtain ⟨s2, h2⟩ := compress_stages_ok cfg f sv sq
      ((if cfg.preserveSuperWeights then
          (inplaceStage (fun m => (identify_and_preserve_super_weights m).1) st,
           (identify_and_preserve_super_weights st.working).2)
        else (st, e)).1) hf
  exact ⟨_, by simp only [compress_model]; rw [h2, except_map_ok]⟩

/-- Under a fault the engine catches, the generator loop completes and
labels one artifact record per level, in table order. -/
theorem run_levels_labels (mid outd : String) (f : Option Fault)
    (sv : Mat → Option SvdFactors) (sq : ℚ → ℚ)
    (hf : f ≠ some Fault.quantPtq161) :
    ∀ (levels : List (String × Recipe)) (m : Model),
      (run_levels levels mid outd f sv sq (m, [])).map (fun p => p.2.map (·.level)) =
        .ok (levels.map Prod.fst) := by
  intro levels
  induction levels with
  | nil => intro m; rfl
  | cons lv rest ih =>
    intro m
    obtain ⟨pr, hcm⟩ := compress_model_ok lv.2 f sv sq [] ⟨m, none⟩ hf
    obtain ⟨art, hstep, hlvl⟩ := level_step_ok_of lv mid outd f sv sq m pr hcm
    simp only [run_levels, List.foldlM_cons, hstep, except_map_ok, bindE, except_bind_ok,
      List.nil_append]
    rw [foldlM_pair_shape (level_step mid outd f sv sq) rest pr.2.shared [art]]
    have ihm := ih pr.2.shared
    simp only [run_levels] at ihm
    cases hr : rest.foldlM (fun acc lv =>
        (level_step mid outd f sv sq lv acc.1).map fun r => (r.1, acc.2 ++ [r.2]))
        (pr.2.shared, []) with
    | error e =>
      rw [hr] at ihm
      simp only [except_map_error] at ihm
      exact Except.noConfusion ihm
    | ok qq =>
      rw [hr] at ihm
      simp only [except_map_ok, Except.ok.injEq] at ihm
      simp only [except_map_ok, Except.ok.injEq, List.map_append, List.map_cons,
        List.map_nil, List.cons_append, List.nil_append]
      rw [hlvl, ihm]

/-- C1 amended: for every model and every injected failure at a point the
source wraps in `try/except` (a per-module pruning failure, a
`get_peft_model` failure, a save failure — or no fault at all),
`generate_nanoquants` returns normally with one artifact record for each
of the 7 levels, in table order. Only a fault inside an unwrapped
quantization operator (the `ptq1_61` path of the counterexample) aborts
the batch. -/
theorem generate_nanoquants_resilient_under_caught_faults
    (m : Model) (mid outd : String) (fault : Option Fault)
    (sv : Mat → Option SvdFactors) (sq : ℚ → ℚ)
    (hf : fault = none ∨ fault = some Fault.pruneModule ∨
      fault = some Fault.loraAttach ∨ fault = some Fault.save) :
    levelsOf (generate_nanoquants m mid outd fault sv sq) =
      ["light", "medium", "heavy", "extreme", "ultra", "nano", "atomic"] := by
  have hne : fault ≠ some Fault.quantPtq161 := by
    rcases hf with h | h | h | h <;> subst h <;> decide
  have hlab := run_levels_labels mid outd fault sv sq hne compression_levels m
  cases hr : run_levels compression_levels mid outd fault sv sq (m, []) with
  | error e =>
    rw [hr] at hlab
    exact absurd hlab (by simp [except_map_error])
  | ok p =>
    rw [hr] at hlab
    simp only [except_map_ok, Except.ok.injEq] at hlab
    rw [generate_nanoquants, hr, except_map_ok]
    simp only [levelsOf]
    rw [hlab]
    rfl

/-- Witness: a caught per-module pruning fault still yields all 7 level
records. -/
theorem generate_nanoquants_resilient_witness :
    levelsOf (generate_nanoquants m0gen "m/x" "out" (some Fault.pruneModule) svd0 sqrt0) =
      ["light", "medium", "heavy", "extreme", "ultra", "nano", "atomic"] :=
  generate_nanoquants_resilient_under_caught_faults m0gen "m/x" "out"
    (some Fault.pruneModule) svd0 sqrt0 (Or.inr (Or.inl rfl))

/-! ### C7 — idempotence of `_quantize_tensor` with self-derived min/max -/

/-- `torch.round` of an integer is that integer. -/
theorem troundZ_intCast (k : ℤ) : troundZ (k : ℚ) = k := by
  simp only [troundZ, Int.floor_intCast, sub_self]
  norm_num

/-- `torch.round` never goes below the floor. -/
theorem floor_le_troundZ (x : ℚ) : ⌊x⌋ ≤ troundZ x := by
  simp only [troundZ]
  split_ifs <;> omega

/-- `torch.round` of a non-negative value is non-negative. -/
theorem troundZ_nonneg {x : ℚ} (h : 0 ≤ x) : 0 ≤ troundZ x :=
  le_trans (Int.floor_nonneg.mpr h) (floor_le_troundZ x)

/-- `torch.round` never rounds past an integer upper bound. -/
theorem troundZ_le_of_le {x : ℚ} {k : ℤ} (h : x ≤ (k : ℚ)) : troundZ x ≤ k := by
  have hf : ⌊x⌋ ≤ k := by
    have h2 : ⌊x⌋ ≤ ⌊(k : ℚ)⌋ := Int.floor_le_floor h
    rwa [Int.floor_intCast] at h2
  have key : (1/2 : ℚ) ≤ x - ⌊x⌋ → ⌊x⌋ + 1 ≤ k := by
    intro hr
    rcases lt_or_eq_of_le hf with h4 | h4
    · omega
    · exfalso
      have hx0 : x - (⌊x⌋ : ℚ) ≤ 0 := by
        rw [h4]
        linarith
      linarith
  simp only [troundZ]
  split_ifs with h1 h2 h3
  · exact hf
  · exact key (le_of_not_lt h1)
  · exact hf
  · exact key (le_of_not_lt h1)

/-- `torch.round` is idempotent on rationals. -/
theorem troundQ_idem (x : ℚ) : troundQ (troundQ x) = troundQ x := by
  simp only [troundQ, troundZ_intCast]

/-- `foldl min` never exceeds its starting accumulator. -/
theorem foldl_min_le_init (xs : List ℚ) : ∀ a : ℚ, xs.foldl min a ≤ a := by
  induction xs with
  | nil => intro a; simp
  | cons x xs ih =>
    intro a
    simp only [List.foldl_cons]
    exact le_trans (ih (min a x)) (min_le_left a x)

/-- `foldl min` never exceeds a list member. -/
theorem foldl_min_le_mem (xs : List ℚ) : ∀ (a x : ℚ), x ∈ xs → xs.foldl min a ≤ x := by
  induction xs with
  | nil => intro a x hx; exact absurd hx (List.not_mem_nil x)
  | cons y ys ih =>
    intro a x hx
    simp only [List.foldl_cons]
    rcases List.mem_cons.mp hx with h | h
    · subst h
      exact le_trans (foldl_min_le_init ys (min a x)) (min_le_right a x)
    · exact ih (min a y) x h

/-- `foldl min` is the accumulator or a list member. -/
theorem foldl_min_mem (xs : List ℚ) : ∀ a : ℚ, xs.foldl min a = a ∨ xs.foldl min a ∈ xs := by
  induction xs with
  | nil => intro a; left; rfl
  | cons y ys ih =>
    intro a
    simp only [List.foldl_cons]
    rcases ih (min a y) with h | h
    · rw [h]
      rcases le_total a y with hay | hya
      · left
        exact min_eq_left hay
      · right
        rw [min_eq_right hya]
        exact List.mem_cons_self y ys
    · right
      exact List.mem_cons_of_mem y h

/-- `foldl max` never goes below its starting accumulator. -/
theorem foldl_max_ge_init (xs : List ℚ) : ∀ a : ℚ, a ≤ xs.foldl max a := by
  induction xs with
  | nil => intro a; simp
  | cons x xs ih =>
    intro a
    simp only [List.foldl_cons]
    exact le_trans (le_max_left a x) (ih (max a x))

/-- `foldl max` never goes below a list member. -/
theorem foldl_max_ge_mem (xs : List ℚ) : ∀ (a x : ℚ), x ∈ xs → x ≤ xs.foldl max a := by
  induction xs with
  | nil => intro a x hx; exact absurd hx (List.not_mem_nil x)
  | cons y ys ih =>
    intro a x hx
    simp only [List.foldl_cons]
    rcases List.mem_cons.mp hx with h | h
    · subst h
      exact le_trans (le_max_right a x) (foldl_max_ge_init ys (max a x))
    · exact ih (max a y) x h

/-- `foldl max` is the accumulator or a list member. -/
theorem foldl_max_mem (xs : List ℚ) : ∀ a : ℚ, xs.foldl max a = a ∨ xs.foldl max a ∈ xs := by
  induction xs with
  | nil => intro a; left; rfl
  | cons y ys ih =>
    intro a
    simp only [List.foldl_cons]
    rcases ih (max a y) with h | h
    · rw [h]
      rcases le_total y a with hya | hay
      · left
        exact max_eq_left hya
      · right
        rw [max_eq_right hay]
        exact List.mem_cons_self y ys
    · right
      exact List.mem_cons_of_mem y h

/-- `tensor.min()` bounds every entry from below. -/
theorem listMinQ_le (l : List ℚ) (x : ℚ) (hx : x ∈ l) : listMinQ l ≤ x := by
  cases l with
  | nil => exact absurd hx (List.not_mem_nil x)
  | cons y ys =>
    rcases List.mem_cons.mp hx with h | h
    · subst h
      exact foldl_min_le_init ys x
    · exact foldl_min_le_mem ys y x h

/-- `tensor.min()` of a nonempty tensor is attained. -/
theorem listMinQ_mem (l : List ℚ) (h : l ≠ []) : listMinQ l ∈ l := by
  cases l with
  | nil => exact absurd rfl h
  | cons y ys =>
    show ys.foldl min y ∈ y :: ys
    rcases foldl_min_mem ys y with h1 | h1
    · rw [h1]
      exact List.mem_cons_self y ys
    · exact List.mem_cons_of_mem y h1

/-- `tensor.max()` bounds every entry from above. -/
theorem listMaxQ_ge (l : List ℚ) (x : ℚ) (hx : x ∈ l) : x ≤ listMaxQ l := by
  cases l with
  | nil => exact absurd hx (List.not_mem_nil x)
  | cons y ys =>
    rcases List.mem_cons.mp hx with h | h
    · subst h
      exact foldl_max_ge_init ys x
    · exact foldl_max_ge_mem ys y x h

/-- `tensor.max()` of a nonempty tensor is attained. -/
theorem listMaxQ_mem (l : List ℚ) (h : l ≠ []) : listMaxQ l ∈ l := by
  cases l with
  | nil => exact absurd rfl h
  | cons y ys =>
    show ys.foldl max y ∈ y :: ys
    rcases foldl_max_mem ys y with h1 | h1
    · rw [h1]
      exact List.mem_cons_self y ys
    · exact List.mem_cons_of_mem y h1

/-- A member below every member is the minimum. -/
theorem listMinQ_eq_of (l : List ℚ) (c : ℚ) (hne : l ≠ []) (hmem : c ∈ l)
    (hle : ∀ x ∈ l, c ≤ x) : listMinQ l = c :=
  le_antisymm (listMinQ_le l c hmem) (hle _ (listMinQ_mem l hne))

/-- A member above every member is the maximum. -/
theorem listMaxQ_eq_of (l : List ℚ) (c : ℚ) (hne : l ≠ []) (hmem : c ∈ l)
    (hge : ∀ x ∈ l, x ≤ c) : listMaxQ l = c :=
  le_antisymm (hge _ (listMaxQ_mem l hne)) (listMaxQ_ge l c hmem)

/-- The NaN-aware min fold agrees with the rational one on finite input. -/
theorem foldl_omin_map_some (xs : List ℚ) : ∀ a : ℚ,
    (xs.map some).foldl (fun a b => a.bind fun p => b.map fun q => min p q) (some a) =
      some (xs.foldl min a) := by
  induction xs with
  | nil => intro a; rfl
  | cons y ys ih =>
    intro a
    show (ys.map some).foldl (fun a b => a.bind fun p => b.map fun q => min p q)
        (some (min a y)) = some (ys.foldl min (min a y))
    exact ih (min a y)

/-- The NaN-aware max fold agrees with the rational one on finite input. -/
theorem foldl_omax_map_some (xs : List ℚ) : ∀ a : ℚ,
    (xs.map some).foldl (fun a b => a.bind fun p => b.map fun q => max p q) (some a) =
      some (xs.foldl max a) := by
  induction xs with
  | nil => intro a; rfl
  | cons y ys ih =>
    intro a
    show (ys.map some).foldl (fun a b => a.bind fun p => b.map fun q => max p q)
        (some (max a y)) = some (ys.foldl max (max a y))
    exact ih (max a y)

/-- `tensor.min()` of an all-finite tensor is finite. -/
theorem listMinO_map_some (l : List ℚ) (h : l ≠ []) :
    listMinO (l.map some) = some (listMinQ l) := by
  cases l with
  | nil => exact absurd rfl h
  | cons y ys => exact foldl_omin_map_some ys y

/-- `tensor.max()` of an all-finite tensor is finite. -/
theorem listMaxO_map_some (l : List ℚ) (h : l ≠ []) :
    listMaxO (l.map some) = some (listMaxQ l) := by
  cases l with
  | nil => exact absurd rfl h
  | cons y ys => exact foldl_omax_map_some ys y

/-- On an all-finite tensor with a nonzero range and a nonzero level
count, `_quantize_tensor` acts as the pointwise total map. -/
theorem quantize_tensor_map_some (t : List ℚ) (b : ℕ) (mn mx : ℚ)
    (hb : ((2:ℚ)^b - 1) ≠ 0) (hd : mx - mn ≠ 0) :
    quantize_tensor (t.map some) b (some mn) (some mx) =
      (t.map (quantizePointTot b mn mx)).map some := by
  simp only [quantize_tensor, List.map_map]
  apply List.map_congr_left
  intro x hx
  simp [osub, oadd, omul, odiv, oround, quantizePointTot, hd, hb]

/-- The single-point quantizer fixes the minimum. -/
theorem quantizePointTot_min (b : ℕ) (mn mx : ℚ) (hd : mx - mn ≠ 0) :
    quantizePointTot b mn mx mn = mn := by
  have h0 : troundQ 0 = 0 := by
    norm_num [troundQ, troundZ, Int.floor_zero]
  simp only [quantizePointTot, sub_self, zero_div, zero_mul]
  rw [h0, zero_div, zero_mul, zero_add]

/-- The single-point quantizer fixes the maximum. -/
theorem quantizePointTot_max (b : ℕ) (mn mx : ℚ) (hb : ((2:ℚ)^b - 1) ≠ 0)
    (hd : mx - mn ≠ 0) :
    quantizePointTot b mn mx mx = mx := by
  have h1 : troundQ ((2:ℚ)^b - 1) = (2:ℚ)^b - 1 := by
    have hc : ((((2:ℤ)^b - 1) : ℤ) : ℚ) = (2:ℚ)^b - 1 := by
      push_cast
      ring
    rw [← hc]
    simp only [troundQ, troundZ_intCast]
  simp only [quantizePointTot]
  rw [div_self hd, one_mul, h1, div_self hb, one_mul]
  ring

/-- Within the tensor's range the single-point quantizer stays within the
range. -/
theorem quantizePointTot_bounds (b : ℕ) (mn mx x : ℚ) (hb : (0:ℚ) < 2^b - 1)
    (hlt : mn < mx) (hx1 : mn ≤ x) (hx2 : x ≤ mx) :
    mn ≤ quantizePointTot b mn mx x ∧ quantizePointTot b mn mx x ≤ mx := by
  have hd : (0:ℚ) < mx - mn := by linarith
  set A : ℚ := 2^b - 1 with hA
  set n : ℚ := (x - mn) / (mx - mn) with hn
  have hn0 : 0 ≤ n := div_nonneg (by linarith) (le_of_lt hd)
  have hn1 : n ≤ 1 := (div_le_one hd).mpr (by linarith)
  have harg0 : 0 ≤ n * A := mul_nonneg hn0 (le_of_lt hb)
  have harg1 : n * A ≤ A := by nlinarith
  set g : ℤ := troundZ (n * A) with hg
  have hg0 : (0:ℤ) ≤ g := troundZ_nonneg harg0
  have hcast : ((((2:ℤ)^b - 1) : ℤ) : ℚ) = A := by
    rw [hA]
    push_cast
    ring
  have hgA : (g:ℚ) ≤ A := by
    have hle : n * A ≤ ((((2:ℤ)^b - 1) : ℤ) : ℚ) := by
      rw [hcast]
      exact harg1
    have h2 : g ≤ (2:ℤ)^b - 1 := troundZ_le_of_le hle
    calc (g:ℚ) ≤ ((((2:ℤ)^b - 1) : ℤ) : ℚ) := by exact_mod_cast h2
      _ = A := hcast
  have hval : quantizePointTot b mn mx x = (g:ℚ) / A * (mx - mn) + mn := by
    simp only [quantizePointTot, troundQ]
  rw [hval]
  constructor
  · have hpos : 0 ≤ (g:ℚ) / A * (mx - mn) := by
      apply mul_nonneg (div_nonneg ?_ (le_of_lt hb)) (le_of_lt hd)
      exact_mod_cast hg0
    linarith
  · have hfrac : (g:ℚ) / A ≤ 1 := (div_le_one hb).mpr hgA
    have hmul : (g:ℚ) / A * (mx - mn) ≤ 1 * (mx - mn) :=
      mul_le_mul_of_nonneg_right hfrac (le_of_lt hd)
    linarith

/-- The single-point quantizer is idempotent (its output is already on the
quantization grid). -/
theorem quantizePointTot_idem (b : ℕ) (mn mx x : ℚ) (hb : ((2:ℚ)^b - 1) ≠ 0)
    (hd : mx - mn ≠ 0) :
    quantizePointTot b mn mx (quantizePointTot b mn mx x) =
      quantizePointTot b mn mx x := by
  simp only [quantizePointTot]
  have key : (troundQ ((x - mn) / (mx - mn) * (2^b - 1)) / (2^b - 1) * (mx - mn) + mn - mn)
      / (mx - mn) * (2^b - 1) = troundQ ((x - mn) / (mx - mn) * (2^b - 1)) := by
    rw [add_sub_cancel_right, mul_div_assoc, div_self hd, mul_one, div_mul_cancel₀ _ hb]
  rw [key, troundQ_idem]

/-- Quantizing preserves the tensor's minimum. -/
theorem listMinQ_map_qpt (t : List ℚ) (b : ℕ) (hne : t ≠ [])
    (hb : (0:ℚ) < 2^b - 1) (hlt : listMinQ t < listMaxQ t) :
    listMinQ (t.map (quantizePointTot b (listMinQ t) (listMaxQ t))) = listMinQ t := by
  have hd : listMaxQ t - listMinQ t ≠ 0 := sub_ne_zero.mpr hlt.ne'
  refine listMinQ_eq_of _ _ ?_ ?_ ?_
  · intro hc
    exact hne (by simpa using hc)
  · have hm : quantizePointTot b (listMinQ t) (listMaxQ t) (listMinQ t) = listMinQ t :=
      quantizePointTot_min b (listMinQ t) (listMaxQ t) hd
    have hmem : quantizePointTot b (listMinQ t) (listMaxQ t) (listMinQ t) ∈
        t.map (quantizePointTot b (listMinQ t) (listMaxQ t)) :=
      List.mem_map_of_mem _ (listMinQ_mem t hne)
    rwa [hm] at hmem
  · intro y hy
    obtain ⟨x, hx, rfl⟩ := List.mem_map.mp hy
    exact (quantizePointTot_bounds b (listMinQ t) (listMaxQ t) x hb hlt
      (listMinQ_le t x hx) (listMaxQ_ge t x hx)).1

/-- Quantizing preserves the tensor's maximum. -/
theorem listMaxQ_map_qpt (t : List ℚ) (b : ℕ) (hne : t ≠ [])
    (hb : (0:ℚ) < 2^b - 1) (hlt : listMinQ t < listMaxQ t) :
    listMaxQ (t.map (quantizePointTot b (listMinQ t) (listMaxQ t))) = listMaxQ t := by
  have hd : listMaxQ t - listMinQ t ≠ 0 := sub_ne_zero.mpr hlt.ne'
  refine listMaxQ_eq_of _ _ ?_ ?_ ?_
  · intro hc
    exact hne (by simpa using hc)
  · have hm : quantizePointTot b (listMinQ t) (listMaxQ t) (listMaxQ t) = listMaxQ t :=
      quantizePointTot_max b (listMinQ t) (listMaxQ t) (ne_of_gt hb) hd
    have hmem : quantizePointTot b (listMinQ t) (listMaxQ t) (listMaxQ t) ∈
        t.map (quantizePointTot b (listMinQ t) (listMaxQ t)) :=
      List.mem_map_of_mem _ (listMaxQ_mem t hne)
    rwa [hm] at hmem
  · intro y hy
    obtain ⟨x, hx, rfl⟩ := List.mem_map.mp hy
    exact (quantizePointTot_bounds b (listMinQ t) (listMaxQ t) x hb hlt
      (listMinQ_le t x hx) (listMaxQ_ge t x hx)).2

/-- C7 counterexample: on the constant tensor `[5, 5]` the self-derived
min and max coincide, the unguarded division makes one application of
`_quantize_tensor` all-NaN, and the torch `==` comparison of the twice-
and once-quantized tensors is false at every entry (NaN is unequal even
to itself) — so the claimed idempotence equation fails. -/
theorem quantize_uniform_not_idempotent :
    quantize_tensor_self [some 5, some 5] 8 = [none, none] ∧
    floatListEq
      (quantize_tensor_self (quantize_tensor_self [some 5, some 5] 8) 8)
      (quantize_tensor_self [some 5, some 5] 8) = false := by
  have h : quantize_tensor_self [some 5, some 5] 8 = [none, none] := by
    norm_num [quantize_tensor_self, quantize_tensor, listMinO, listMaxO, osub, oadd, omul,
      odiv, oround, min_self, max_self]
  refine ⟨h, ?_⟩
  rw [h]
  have h2 : quantize_tensor_self ([none, none] : List (Option ℚ)) 8 = [none, none] := by
    norm_num [quantize_tensor_self, quantize_tensor, listMinO, listMaxO, osub, oadd, omul,
      odiv, oround]
  rw [h2]
  rfl

/-- C7 amended: on an all-finite tensor whose minimum and maximum differ
(and `bits ≥ 1`), quantizing twice with self-derived min/max equals
quantizing once — the min and max of the quantized tensor are the original
min and max, and every quantized value is already on the grid. The claim
as stated fails only in the degenerate `min == max` case, where one
application is already all-NaN. -/
theorem quantize_uniform_idempotent_amended (t : List ℚ) (b : ℕ) (hb : 1 ≤ b)
    (hne : t ≠ []) (hmm : listMinQ t < listMaxQ t) :
    quantize_tensor_self (quantize_tensor_self (t.map some) b) b =
      quantize_tensor_self (t.map some) b := by
  have hb1 : (0:ℚ) < 2^b - 1 := by
    have h2 : (2:ℚ)^1 ≤ 2^b := by
      apply pow_le_pow_right₀ ?_ hb
      norm_num
    simp only [pow_one] at h2
    linarith
  have hbne : ((2:ℚ)^b - 1) ≠ 0 := ne_of_gt hb1
  have hd : listMaxQ t - listMinQ t ≠ 0 := sub_ne_zero.mpr hmm.ne'
  have h1 : quantize_tensor_self (t.map some) b =
      (t.map (quantizePointTot b (listMinQ t) (listMaxQ t))).map some := by
    rw [quantize_tensor_self, listMinO_map_some t hne, listMaxO_map_some t hne,
      quantize_tensor_map_some t b (listMinQ t) (listMaxQ t) hbne hd]
  have hune : t.map (quantizePointTot b (listMinQ t) (listMaxQ t)) ≠ [] := by
    intro hc
    exact hne (by simpa using hc)
  have humin := listMinQ_map_qpt t b hne hb1 hmm
  have humax := listMaxQ_map_qpt t b hne hb1 hmm
  rw [h1, quantize_tensor_self, listMinO_map_some _ hune, listMaxO_map_some _ hune,
    humin, humax, quantize_tensor_map_some _ b (listMinQ t) (listMaxQ t) hbne hd]
  have hid : (t.map (quantizePointTot b (listMinQ t) (listMaxQ t))).map
      (quantizePointTot b (listMinQ t) (listMaxQ t)) =
      t.map (quantizePointTot b (listMinQ t) (listMaxQ t)) := by
    rw [List.map_map]
    apply List.map_congr_left
    intro x hx
    exact quantizePointTot_idem b (listMinQ t) (listMaxQ t) x hbne hd
  rw [hid]

/-- Witness: re-quantizing `[1, 2, 3]` at 2 bits changes nothing. -/
theorem quantize_uniform_idempotent_amended_witness :
    quantize_tensor_self (quantize_tensor_self ([1, 2, 3].map some) 2) 2 =
      quantize_tensor_self ([1, 2, 3].map some) 2 :=
  quantize_uniform_idempotent_amended [1, 2, 3] 2 (by norm_num) (by simp)
    (by norm_num [listMinQ, listMaxQ, min_def, max_def])

end NanoQuant
